import Mathlib

/-!
# Verification of the `source-bot-host` RCON client and log ingestion core

A shallow embedding of the repository's core logic:

* `rcon/rcon.py` — the RCON frame codec (`_build_packet` / `_read_packet`) and
  the session operations `authenticate` / `execute_command`;
* `rcon/util.py` — the `Dispatcher` publish/subscribe broadcaster and
  `parse_timestamp`;
* `rcon/log_parser.py` — the `LogSocket` receive loop.

Bytes are modelled as `List Nat` (each entry a byte value `< 256`); Python's
signed 32-bit integers are modelled as `Int` with explicit reduction modulo
`2^32`.  Socket reads are modelled by an environment-chosen plan: a list whose
successive entries are the byte strings returned by successive `recv` calls
(an empty entry models a zero-byte read, i.e. the peer closed the connection).
Running out of plan entries models a call that blocks forever waiting for data.
-/

namespace SourceBot

/-! ## Little-endian signed 32-bit integers (`struct.pack('<i', ·)` / `struct.unpack`) -/

/-- `struct.pack('<i', v)`: the four little-endian bytes of `v` reduced mod `2^32`.
In the source this is only applied to values in `[-2^31, 2^31)`. -/
def pack32 (v : Int) : List Nat :=
  let n := (v % (2 ^ 32 : Int)).toNat
  [n % 256, n / 256 % 256, n / 65536 % 256, n / 16777216 % 256]

/-- `struct.unpack('<i', bs)`: reassemble four little-endian bytes into a signed
32-bit integer. -/
def unpack32 (bs : List Nat) : Int :=
  let n := bs.getD 0 0 + 256 * bs.getD 1 0 + 65536 * bs.getD 2 0 + 16777216 * bs.getD 3 0
  if n < 2 ^ 31 then (n : Int) else (n : Int) - 2 ^ 32

theorem pack32_length (v : Int) : (pack32 v).length = 4 := rfl

theorem unpack32_pack32 (v : Int) (hlo : -(2 ^ 31) ≤ v) (hhi : v < 2 ^ 31) :
    unpack32 (pack32 v) = v := by
  have hmod : v % (2 ^ 32 : Int) = if 0 ≤ v then v else v + 2 ^ 32 := by
    split <;> omega
  by_cases h0 : 0 ≤ v
  · have hv : (v % (2 ^ 32 : Int)).toNat = v.toNat := by rw [hmod]; simp [h0]
    have hlt : v.toNat < 2 ^ 31 := by omega
    simp only [pack32, unpack32, hv]
    have hrec : v.toNat % 256 + 256 * (v.toNat / 256 % 256) + 65536 * (v.toNat / 65536 % 256)
        + 16777216 * (v.toNat / 16777216 % 256) = v.toNat := by
      omega
    simp only [List.getD, List.get?_eq_getElem?]
    norm_num [hrec]
    omega
  · have hv : (v % (2 ^ 32 : Int)).toNat = (v + 2 ^ 32).toNat := by rw [hmod]; simp [h0]
    set m := (v + 2 ^ 32).toNat with hm
    have hmlo : 2 ^ 31 ≤ m := by omega
    have hmhi : m < 2 ^ 32 := by omega
    simp only [pack32, unpack32, hv, ← hm]
    have hrec : m % 256 + 256 * (m / 256 % 256) + 65536 * (m / 65536 % 256)
        + 16777216 * (m / 16777216 % 256) = m := by
      omega
    simp only [List.getD, List.get?_eq_getElem?]
    norm_num [hrec]
    omega

/-! ## The receive plan and the short-read retry loop

`_read_packet` pulls bytes from the socket with `recv`, accumulating until it
has the required count.  A *plan* is the list of byte strings the successive
`recv` calls return.  `recvLoop need acc plan` models

    while len(acc) < need: acc += self.sock.recv(need - len(acc))

returning the accumulated bytes and the unconsumed plan, or `none` when the
plan is exhausted with the loop still unsatisfied (the real code would block
or spin forever). -/

def recvLoop (need : Nat) : List Nat → List (List Nat) → Option (List Nat × List (List Nat))
  | acc, [] => if need ≤ acc.length then some (acc, []) else none
  | acc, c :: rest =>
    if need ≤ acc.length then some (acc, c :: rest)
    else recvLoop need (acc ++ c) rest

/-- Outcome of `_read_packet` in the model. `connErr` is the
`OSError('Connection failure')` raised on a zero-byte first read; `sizeErr` and
`typeErr` are the two `ValueError`s; `asciiErr` is the `UnicodeDecodeError` from
`str(..., 'ascii')`; `structErr` is `struct.error` (size field not 4 bytes);
`blocked` means the plan ran out, i.e. the call never returns. -/
inductive DecodeResult where
  | ok (id ptype : Int) (body : List Nat)
  | connErr
  | sizeErr (size : Int)
  | typeErr
  | asciiErr
  | structErr
  | blocked
  deriving DecidableEq, Repr

/-- Field extraction and validation of `_read_packet` once the raw packet bytes
are in hand: `id` at offset 0, `type` at offset 4, body at offset 8 with the
final two NUL bytes stripped (`raw_packet[8:-2]`), the ASCII decode, and the
type-field check against the four `SERVERDATA_*` constants (3, 2, 2, 0). -/
def parseRaw (raw : List Nat) (warned : Bool) : DecodeResult × Bool :=
  let pid := unpack32 (raw.take 4)
  let ptype := unpack32 ((raw.drop 4).take 4)
  let body := (raw.drop 8).take (raw.length - 10)
  if body.all (· < 128) then
    if ptype = 3 ∨ ptype = 2 ∨ ptype = 0 then (.ok pid ptype body, warned)
    else (.typeErr, warned)
  else (.asciiErr, warned)

/-- The packet-payload read of `_read_packet`: `raw_packet = self.sock.recv(size)`
followed by the short-read retry loop.  Note there is no zero-byte check here:
a closed peer makes the loop retry forever (modelled by `blocked`). -/
def readBody (size : Int) (warned : Bool) : List (List Nat) → DecodeResult × Bool
  | [] => (.blocked, warned)
  | c :: plan3 =>
    match recvLoop size.toNat c plan3 with
    | none => (.blocked, warned)
    | some (raw, _) => parseRaw raw warned

/-- `RCON._read_packet`, over a receive plan.  Returns the decode outcome
together with a flag recording whether the oversize (`size > 4096`) warning was
printed.  Only the very first `recv(4)` result is checked for emptiness
(`if not raw_size: raise OSError('Connection failure')`). -/
def readPacket (plan : List (List Nat)) : DecodeResult × Bool :=
  match plan with
  | [] => (.blocked, false)
  | first :: rest =>
    if first.isEmpty then (.connErr, false)
    else
      match recvLoop 4 first rest with
      | none => (.blocked, false)
      | some (rawSize, plan2) =>
        if rawSize.length ≠ 4 then (.structErr, false)
        else
          let size := unpack32 rawSize
          if size < 10 then (.sizeErr size, false)
          else readBody size (decide (size > 4096)) plan2

/-- `RCON._build_packet`: the encoder.  `pid` stands for the value drawn by
`random.randint(1, (2 << 30) - 1)`.  Returns `none` when the body is over
4086 bytes (`ValueError`) or not ASCII (`bytes(..., 'ascii')` failure). -/
def buildPacket (ptype : Int) (body : List Nat) (pid : Int) : Option (List Nat) :=
  if body.length > 4086 then none
  else if body.all (· < 128) then
    some (pack32 (body.length + 10) ++ pack32 pid ++ pack32 ptype ++ body ++ [0, 0])
  else none

/-! ### Basic lemmas about the retry loop -/

theorem recvLoop_done (n : Nat) (acc : List Nat) (plan : List (List Nat))
    (h : n ≤ acc.length) : recvLoop n acc plan = some (acc, plan) := by
  cases plan <;> simp [recvLoop, h]

theorem recvLoop_step (n : Nat) (acc c : List Nat) (rest : List (List Nat))
    (h : acc.length < n) : recvLoop n acc (c :: rest) = recvLoop n (acc ++ c) rest := by
  simp [recvLoop, Nat.not_le.mpr h]

theorem readBody_cons_nil (size : Int) (w : Bool) (rest : List (List Nat))
    (h : 0 < size.toNat) : readBody size w ([] :: rest) = readBody size w rest := by
  cases rest with
  | nil =>
    simp [readBody, recvLoop, Nat.not_le.mpr h]
  | cons c r =>
    have : recvLoop size.toNat [] (c :: r) = recvLoop size.toNat c r := by
      rw [recvLoop_step _ _ _ _ (by simpa using h)]
      simp
    simp [readBody, this]

/-- Decoding a complete frame laid out as the encoder lays it out: the size
field arrives as one 4-byte read, the remainder as one `size`-byte read. -/
theorem readPacket_frame (pid ptype : Int) (body : List Nat)
    (hpl : -(2 ^ 31) ≤ pid) (hph : pid < 2 ^ 31)
    (htl : -(2 ^ 31) ≤ ptype) (hth : ptype < 2 ^ 31)
    (hlen : body.length + 10 < 2 ^ 31)
    (hascii : body.all (· < 128)) :
    readPacket [pack32 ((body.length : Int) + 10),
        pack32 pid ++ pack32 ptype ++ body ++ [0, 0]] =
      (if ptype = 3 ∨ ptype = 2 ∨ ptype = 0 then .ok pid ptype body else .typeErr,
       decide ((body.length : Int) + 10 > 4096)) := by
  have hsz : unpack32 (pack32 ((body.length : Int) + 10)) = (body.length : Int) + 10 :=
    unpack32_pack32 _ (by omega) (by exact_mod_cast hlen)
  have hne : (pack32 ((body.length : Int) + 10)).isEmpty = false := by
    simp [pack32, List.isEmpty]
  have hrecv1 : recvLoop 4 (pack32 ((body.length : Int) + 10))
      [pack32 pid ++ pack32 ptype ++ body ++ [0, 0]] =
      some (pack32 ((body.length : Int) + 10),
            [pack32 pid ++ pack32 ptype ++ body ++ [0, 0]]) :=
    recvLoop_done _ _ _ (by rw [pack32_length])
  have hpayLen : (pack32 pid ++ pack32 ptype ++ body ++ [0, 0]).length = body.length + 10 := by
    simp [pack32]
  have hrecv2 : recvLoop ((body.length : Int) + 10).toNat
      (pack32 pid ++ pack32 ptype ++ body ++ [0, 0]) [] =
      some (pack32 pid ++ pack32 ptype ++ body ++ [0, 0], []) :=
    recvLoop_done _ _ _ (by rw [hpayLen]; omega)
  have htake4 : (pack32 pid ++ pack32 ptype ++ body ++ [0, 0]).take 4 = pack32 pid := by
    rw [List.append_assoc, List.append_assoc, ← pack32_length pid]
    exact List.take_left _ _
  have hdrop4 : (pack32 pid ++ pack32 ptype ++ body ++ [0, 0]).drop 4 =
      pack32 ptype ++ (body ++ [0, 0]) := by
    rw [List.append_assoc, List.append_assoc, ← pack32_length pid]
    exact List.drop_left _ _
  have htype : ((pack32 pid ++ pack32 ptype ++ body ++ [0, 0]).drop 4).take 4 =
      pack32 ptype := by
    rw [hdrop4, ← pack32_length ptype]
    exact List.take_left _ _
  have hdrop8 : (pack32 pid ++ pack32 ptype ++ body ++ [0, 0]).drop 8 = body ++ [0, 0] := by
    have : (8 : Nat) = 4 + 4 := rfl
    rw [this, ← List.drop_drop, hdrop4, ← pack32_length ptype]
    exact List.drop_left _ _
  have hbody : ((pack32 pid ++ pack32 ptype ++ body ++ [0, 0]).drop 8).take
      ((pack32 pid ++ pack32 ptype ++ body ++ [0, 0]).length - 10) = body := by
    rw [hdrop8, hpayLen]
    simp
  simp only [readPacket, hne, Bool.false_eq_true, if_false, hrecv1, pack32_length,
    ne_eq, not_true_eq_false, if_false, hsz]
  rw [if_neg (by omega)]
  simp only [readBody, hrecv2, parseRaw, htake4, htype, hbody,
    unpack32_pack32 pid hpl hph, unpack32_pack32 ptype htl hth, hascii, if_true]
  split <;> rfl

/-- A zero-byte `recv` result anywhere after the first read is silently
retried: it changes nothing about the outcome of `_read_packet`. -/
theorem readPacket_skip_empty (c : List Nat) (rest : List (List Nat)) :
    readPacket (c :: [] :: rest) = readPacket (c :: rest) := by
  cases c with
  | nil => simp [readPacket]
  | cons a c' =>
    by_cases h4 : 4 ≤ (a :: c').length
    · have h1 := recvLoop_done 4 (a :: c') ([] :: rest) h4
      have h2 := recvLoop_done 4 (a :: c') rest h4
      simp only [readPacket, List.isEmpty_cons, Bool.false_eq_true, if_false, h1, h2]
      split_ifs with hL hS
      · rfl
      · rfl
      · exact readBody_cons_nil _ _ _ (by omega)
    · have h1 : recvLoop 4 (a :: c') ([] :: rest) = recvLoop 4 (a :: c') rest := by
        rw [recvLoop_step _ _ _ _ (by omega), List.append_nil]
      simp only [readPacket, h1]

/-- Two consecutive short reads of the size field are concatenated by the
retry loop, exactly as if the bytes had arrived in one read. -/
theorem readPacket_merge_short (c1 c2 : List Nat) (rest : List (List Nat))
    (hne : c1 ≠ []) (hlen : c1.length + c2.length ≤ 4) :
    readPacket (c1 :: c2 :: rest) = readPacket ((c1 ++ c2) :: rest) := by
  cases c1 with
  | nil => exact absurd rfl hne
  | cons a c' =>
    by_cases h4 : 4 ≤ (a :: c').length
    · have hc2 : c2 = [] := by
        have : c2.length = 0 := by simp at hlen h4; omega
        simpa using this
      subst hc2
      rw [List.append_nil]
      exact readPacket_skip_empty _ _
    · have h1 : recvLoop 4 (a :: c') (c2 :: rest) = recvLoop 4 ((a :: c') ++ c2) rest :=
        recvLoop_step _ _ _ _ (by omega)
      simp only [readPacket, h1, List.cons_append, List.isEmpty_cons]

/-! ## Claim theorems for the frame codec -/

/-- **C2.** For every body and known packet type that `_build_packet` accepts
(so in particular every ASCII body of length ≤ 4086), and every id the encoder
can produce (`random.randint(1, (2 << 30) - 1)`, i.e. `1 ≤ id ≤ 2^31 - 1`),
decoding the encoded byte string — size field delivered as one 4-byte read, the
remainder as one `size`-byte read — yields exactly `(id, type, body)`. -/
theorem c2_frame_codec_roundtrip (ptype : Int) (body : List Nat) (pid : Int)
    (bs : List Nat)
    (hty : ptype = 3 ∨ ptype = 2 ∨ ptype = 0)
    (hpid1 : 1 ≤ pid) (hpid2 : pid ≤ 2 ^ 31 - 1)
    (henc : buildPacket ptype body pid = some bs) :
    readPacket [bs.take 4, bs.drop 4] = (.ok pid ptype body, false) := by
  unfold buildPacket at henc
  by_cases h1 : body.length > 4086
  · simp [h1] at henc
  by_cases h2 : body.all (· < 128)
  swap
  · rw [if_neg h1, if_neg h2] at henc; exact absurd henc (by simp)
  rw [if_neg h1, if_pos h2] at henc
  have hbs : bs = pack32 ((body.length : Int) + 10) ++
      (pack32 pid ++ pack32 ptype ++ body ++ [0, 0]) := by
    rw [← Option.some_inj.mp henc]
    simp [List.append_assoc]
  have htake : bs.take 4 = pack32 ((body.length : Int) + 10) := by
    rw [hbs, ← pack32_length ((body.length : Int) + 10)]
    exact List.take_left _ _
  have hdrop : bs.drop 4 = pack32 pid ++ pack32 ptype ++ body ++ [0, 0] := by
    rw [hbs, ← pack32_length ((body.length : Int) + 10)]
    exact List.drop_left _ _
  have htl : -(2 ^ 31) ≤ ptype := by rcases hty with h | h | h <;> omega
  have hth : ptype < 2 ^ 31 := by rcases hty with h | h | h <;> omega
  rw [htake, hdrop,
    readPacket_frame pid ptype body (by omega) (by omega) htl hth (by omega) h2,
    if_pos hty]
  congr 1
  simp only [decide_eq_false_iff_not, not_lt]
  omega

/-- **C2 witness.** A concrete round-trip: type `EXEC_COMMAND`, body `"hi"`,
generated id 77. -/
theorem c2_frame_codec_roundtrip_witness :
    readPacket [[12, 0, 0, 0].take 4, [12, 0, 0, 0].drop 4] = (.ok 77 2 [104, 105], false) ∨
    readPacket [[12, 0, 0, 0, 77, 0, 0, 0, 2, 0, 0, 0, 104, 105, 0, 0].take 4,
        [12, 0, 0, 0, 77, 0, 0, 0, 2, 0, 0, 0, 104, 105, 0, 0].drop 4] =
      (.ok 77 2 [104, 105], false) :=
  Or.inr (c2_frame_codec_roundtrip 2 [104, 105] 77 _
    (Or.inr (Or.inl rfl)) (by decide) (by decide) rfl)

/-- **C6 counterexample.** The claim says any zero-byte read during either read
makes `decode` fail with a connection error.  Concretely: the size field
arrives whole announcing a 16-byte packet, then the peer closes (the next
`recv` returns zero bytes).  `_read_packet` does not raise — its body retry
loop spins on the closed socket (`blocked`), and the result is not `connErr`. -/
theorem c6_counterexample :
    readPacket [[16, 0, 0, 0], []] = (.blocked, false) ∧
      readPacket [[16, 0, 0, 0], []] ≠ (.connErr, false) := by
  constructor
  · rfl
  · decide

/-- **C6 (amended).** `_read_packet` reads 4 bytes of size then `size` bytes of
packet, retrying short reads until the counts are met, but detects a closed
peer only on the very first read: (1) a zero-byte result from the first
`recv(4)` raises the connection-failure `OSError`; (2) a zero-byte read at any
later single position is silently retried, leaving the outcome unchanged (so a
peer that closes mid-packet makes the call spin forever rather than fail);
(3) short reads of the size field are accumulated across `recv` calls. -/
theorem c6_read_retry_amended :
    (∀ rest : List (List Nat), readPacket ([] :: rest) = (.connErr, false)) ∧
    (∀ (c : List Nat) (rest : List (List Nat)),
        readPacket (c :: [] :: rest) = readPacket (c :: rest)) ∧
    (∀ (c1 c2 : List Nat) (rest : List (List Nat)), c1 ≠ [] →
        c1.length + c2.length ≤ 4 →
        readPacket (c1 :: c2 :: rest) = readPacket ((c1 ++ c2) :: rest)) :=
  ⟨fun rest => by simp [readPacket],
   readPacket_skip_empty,
   readPacket_merge_short⟩

/-- **C6 (amended) witness.** The size field split `[18] ++ [0,0,0]` is
reassembled; a zero read inserted mid-plan changes nothing; a first-read close
errors out. -/
theorem c6_read_retry_amended_witness :
    readPacket [[]] = (.connErr, false) ∧
    readPacket [[18], [], [0, 0, 0]] = readPacket [[18], [0, 0, 0]] ∧
    ([18] : List Nat) ≠ [] ∧
    readPacket [[18], [0, 0, 0], [1, 2, 3, 4, 5, 6, 7, 8, 97, 98, 99, 100, 101, 102, 0, 0]] =
      readPacket [[18, 0, 0, 0], [1, 2, 3, 4, 5, 6, 7, 8, 97, 98, 99, 100, 101, 102, 0, 0]] :=
  ⟨c6_read_retry_amended.1 [],
   c6_read_retry_amended.2.1 [18] [[0, 0, 0]],
   by decide,
   c6_read_retry_amended.2.2 [18] [0, 0, 0] _ (by decide) (by decide)⟩

/-- **C7.** `_read_packet` validation: (1) a decoded size below 10 fails with
the invalid-size `ValueError`; (2) a size above 4096 only sets the non-fatal
warning and the packet is still processed to completion, returning its id,
type and body; (3) a type field outside the known values `{3, 2, 0}` fails
with the invalid-type `ValueError`. -/
theorem c7_read_packet_validation :
    (∀ (szb : List Nat) (rest : List (List Nat)),
        szb.length = 4 → unpack32 szb < 10 →
        readPacket (szb :: rest) = (.sizeErr (unpack32 szb), false)) ∧
    (∀ (pid ptype : Int) (body : List Nat),
        -(2 ^ 31) ≤ pid → pid < 2 ^ 31 →
        (ptype = 3 ∨ ptype = 2 ∨ ptype = 0) →
        4096 < body.length + 10 → body.length + 10 < 2 ^ 31 →
        body.all (· < 128) →
        readPacket [pack32 ((body.length : Int) + 10),
            pack32 pid ++ pack32 ptype ++ body ++ [0, 0]] =
          (.ok pid ptype body, true)) ∧
    (∀ (pid ptype : Int) (body : List Nat),
        -(2 ^ 31) ≤ pid → pid < 2 ^ 31 →
        -(2 ^ 31) ≤ ptype → ptype < 2 ^ 31 →
        ptype ≠ 3 → ptype ≠ 2 → ptype ≠ 0 →
        body.length ≤ 4086 →
        body.all (· < 128) →
        readPacket [pack32 ((body.length : Int) + 10),
            pack32 pid ++ pack32 ptype ++ body ++ [0, 0]] =
          (.typeErr, false)) := by
  refine ⟨?_, ?_, ?_⟩
  · intro szb rest h4 hlt
    cases szb with
    | nil => simp at h4
    | cons a s =>
      have h1 := recvLoop_done 4 (a :: s) rest (le_of_eq h4.symm)
      simp only [readPacket, List.isEmpty_cons, Bool.false_eq_true, if_false, h1, h4,
        ne_eq, not_true_eq_false, if_pos hlt]
  · intro pid ptype body hpl hph hty hbig hlen hascii
    have htl : -(2 ^ 31) ≤ ptype := by rcases hty with h | h | h <;> omega
    have hth : ptype < 2 ^ 31 := by rcases hty with h | h | h <;> omega
    rw [readPacket_frame pid ptype body hpl hph htl hth hlen hascii, if_pos hty]
    congr 1
    simp only [decide_eq_true_eq]
    omega
  · intro pid ptype body hpl hph htl hth h3 h2 h0 hlen hascii
    rw [readPacket_frame pid ptype body hpl hph htl hth (by omega) hascii,
      if_neg (by tauto)]
    congr 1
    simp only [decide_eq_false_iff_not, not_lt]
    omega

/-- **C7 witness.** Concrete instances: size 9 rejected; a 4087-byte body
(size 4097) processed with only the warning; type 7 rejected. -/
theorem c7_read_packet_validation_witness :
    readPacket ([9, 0, 0, 0] :: []) = (.sizeErr (unpack32 [9, 0, 0, 0]), false) ∧
    readPacket [pack32 (((List.replicate 4087 97).length : Int) + 10),
        pack32 5 ++ pack32 2 ++ List.replicate 4087 97 ++ [0, 0]] =
      (.ok 5 2 (List.replicate 4087 97), true) ∧
    readPacket [pack32 ((([104] : List Nat).length : Int) + 10),
        pack32 5 ++ pack32 7 ++ [104] ++ [0, 0]] = (.typeErr, false) :=
  ⟨c7_read_packet_validation.1 [9, 0, 0, 0] [] rfl (by decide),
   c7_read_packet_validation.2.1 5 2 (List.replicate 4087 97) (by decide) (by decide)
     (Or.inr (Or.inl rfl)) (by rw [List.length_replicate]; omega) (by rw [List.length_replicate]; omega)
     (by rw [List.all_eq_true]
         intro x hx
         rw [List.eq_of_mem_replicate hx]
         decide),
   c7_read_packet_validation.2.2 5 7 [104] (by decide) (by decide) (by decide) (by decide)
     (by decide) (by decide) (by decide) (by decide) (by decide)⟩

/-! ## The RCON session: `authenticate` and `execute_command`

Both operations exchange whole packets: every receive goes through
`_read_packet` and every send through `_build_packet`.  They are therefore
modelled one level above the byte codec, over the stream of decoded response
packets the peer supplies.  `ReceivedPacketInfo` mirrors the namedtuple of the
same name; a `SentPacket` records the arguments `_build_packet` was called
with, plus the id it drew — standing for the byte string that was sent. -/

/-- The `SERVERDATA_AUTH` type constant (3). -/
def SERVERDATA_AUTH : Int := 3
/-- The `SERVERDATA_EXECCOMMAND` type constant (2). -/
def SERVERDATA_EXECCOMMAND : Int := 2
/-- The `SERVERDATA_AUTH_RESPONSE` type constant (2, shared with EXECCOMMAND). -/
def SERVERDATA_AUTH_RESPONSE : Int := 2
/-- The `SERVERDATA_RESPONSE_VALUE` type constant (0). -/
def SERVERDATA_RESPONSE_VALUE : Int := 0

/-- A decoded incoming packet, as `_read_packet` returns it. -/
structure ReceivedPacketInfo where
  id : Int
  ptype : Int
  body : String
  deriving DecidableEq, Repr

/-- An outgoing packet: the `packet_type` and `body_content` passed to
`_build_packet` together with the id it generated. -/
structure SentPacket where
  ptype : Int
  body : String
  id : Int
  deriving DecidableEq, Repr

/-- `RCON.authenticate` over the stream of decoded response packets.  `pid` is
the id `_build_packet` drew for the AUTH packet.  Returns the sent packet and,
when the peer supplies two packets and the first mirrors the sent id (the
`assert`), the boolean result together with the count of response packets read;
`none` models blocking on a short stream or the assertion failing. -/
def authenticate (password : String) (pid : Int) (stream : List ReceivedPacketInfo) :
    SentPacket × Option (Bool × Nat) :=
  (⟨SERVERDATA_AUTH, password, pid⟩,
   match stream with
   | p1 :: p2 :: _ => if p1.id = pid then some (p2.id != -1, 2) else none
   | _ => none)

/-- The read loop of `RCON.execute_command`: append bodies while the packet id
matches the command id; the first packet whose id differs is consumed and
dropped, and the unread remainder of the stream is returned. -/
def execLoop (k : Int) : List ReceivedPacketInfo → Option (List String × List ReceivedPacketInfo)
  | [] => none
  | p :: rest =>
    if p.id = k then
      match execLoop k rest with
      | none => none
      | some (bs, rem) => some (p.body :: bs, rem)
    else some ([], rest)

/-- `RCON.execute_command` over the stream of decoded response packets.  `k` is
the id drawn for the `EXEC_COMMAND` packet, `kterm` the id drawn for the
empty-body `RESPONSE_VALUE` terminator sent right behind it.  After the read
loop, one further packet is read and dropped; the result is the concatenation
(`''.join`) of the collected bodies, paired with the number of response
packets consumed. -/
def executeCommand (command : String) (k kterm : Int) (stream : List ReceivedPacketInfo) :
    (SentPacket × SentPacket) × Option (String × Nat) :=
  ((⟨SERVERDATA_EXECCOMMAND, command, k⟩, ⟨SERVERDATA_RESPONSE_VALUE, "", kterm⟩),
   match execLoop k stream with
   | none => none
   | some (bs, rem) =>
     match rem with
     | [] => none
     | _ :: rem2 => some (String.join bs, stream.length - rem2.length))

theorem execLoop_append (k : Int) (bodies : List String) (q : ReceivedPacketInfo)
    (rest : List ReceivedPacketInfo) (hq : q.id ≠ k) :
    execLoop k ((bodies.map fun b => ⟨k, SERVERDATA_RESPONSE_VALUE, b⟩) ++ q :: rest) =
      some (bodies, rest) := by
  induction bodies with
  | nil => simp [execLoop, hq]
  | cons b bs ih => simp [execLoop, ih]

/-- **C1.** `execute_command` sends the `EXEC_COMMAND` packet with its fresh id
`k` followed immediately by an empty-body `RESPONSE_VALUE` terminator; and for
a reply stream of `N` `RESPONSE_VALUE` packets with id `k` and bodies
`b1..bN` followed by two packets whose ids differ from `k`, it reads exactly
`N + 2` response packets (discarding the last two) and returns the ordered
concatenation `b1..bN`. -/
theorem c1_execute_command_reassembly (command : String) (k kterm : Int)
    (bodies : List String) (q1 q2 : ReceivedPacketInfo)
    (extra : List ReceivedPacketInfo)
    (hq1 : q1.id ≠ k) (_hq2 : q2.id ≠ k) :
    executeCommand command k kterm
        ((bodies.map fun b => ⟨k, SERVERDATA_RESPONSE_VALUE, b⟩) ++ q1 :: q2 :: extra) =
      ((⟨SERVERDATA_EXECCOMMAND, command, k⟩, ⟨SERVERDATA_RESPONSE_VALUE, "", kterm⟩),
        some (String.join bodies, bodies.length + 2)) := by
  unfold executeCommand
  rw [execLoop_append k bodies q1 (q2 :: extra) hq1]
  simp
  omega

/-- **C1 witness.** Three reply packets `"a"`, `"b"`, `"c"` with the command id
9, then two packets with different ids: the result is `"abc"` after consuming
exactly 5 packets. -/
theorem c1_execute_command_reassembly_witness :
    executeCommand "status" 9 4
        ((["a", "b", "c"].map fun b => ⟨9, SERVERDATA_RESPONSE_VALUE, b⟩) ++
          ⟨5, SERVERDATA_RESPONSE_VALUE, ""⟩ :: ⟨5, SERVERDATA_RESPONSE_VALUE, ""⟩ :: []) =
      ((⟨SERVERDATA_EXECCOMMAND, "status", 9⟩, ⟨SERVERDATA_RESPONSE_VALUE, "", 4⟩),
        some (String.join ["a", "b", "c"], 5)) :=
  c1_execute_command_reassembly "status" 9 4 ["a", "b", "c"]
    ⟨5, SERVERDATA_RESPONSE_VALUE, ""⟩ ⟨5, SERVERDATA_RESPONSE_VALUE, ""⟩ []
    (by decide) (by decide)

/-- **C3.** `authenticate` sends exactly one AUTH packet and reads exactly two
response packets; given that the first response's id equals the sent id, it
returns true iff the second response's id is not −1. -/
theorem c3_authenticate_handshake (password : String) (pid : Int)
    (p1 p2 : ReceivedPacketInfo) (rest : List ReceivedPacketInfo)
    (h : p1.id = pid) :
    (authenticate password pid (p1 :: p2 :: rest)).1 =
        ⟨SERVERDATA_AUTH, password, pid⟩ ∧
    (authenticate password pid (p1 :: p2 :: rest)).2 = some (p2.id != -1, 2) ∧
    ((p2.id != -1) = true ↔ p2.id ≠ -1) := by
  refine ⟨rfl, ?_, by simp⟩
  simp [authenticate, h]

/-- **C3 witness.** A matching first response and a second response with id 42:
authentication succeeds after reading two packets. -/
theorem c3_authenticate_handshake_witness :
    (authenticate "hunter2" 7 (⟨7, SERVERDATA_RESPONSE_VALUE, ""⟩ ::
        ⟨42, SERVERDATA_AUTH_RESPONSE, ""⟩ :: [])).1 = ⟨SERVERDATA_AUTH, "hunter2", 7⟩ ∧
    (authenticate "hunter2" 7 (⟨7, SERVERDATA_RESPONSE_VALUE, ""⟩ ::
        ⟨42, SERVERDATA_AUTH_RESPONSE, ""⟩ :: [])).2 = some (((42 : Int) != -1), 2) ∧
    (((42 : Int) != -1) = true ↔ (42 : Int) ≠ -1) :=
  c3_authenticate_handshake "hunter2" 7 ⟨7, SERVERDATA_RESPONSE_VALUE, ""⟩
    ⟨42, SERVERDATA_AUTH_RESPONSE, ""⟩ [] rfl

/-! ## The event dispatcher (`rcon/util.py`, class `Dispatcher`)

Handlers are identified by naturals.  What a handler *does* when invoked is
given by a behaviour map `beh : Nat → List HOp`: the dispatcher calls it may
make (re-entrant `unregister`) and whether it raises.  Python's `set` of
handlers is modelled as a duplicate-free list (set iteration order is
unspecified; the list fixes one order, and no claim depends on it).  `fire`
additionally returns the invocation trace — the `(handler, args)` calls made,
in order — and whether it completed without a handler raising. -/

/-- One step a handler performs during its invocation: a re-entrant
`unregister` call, or raising an exception. -/
inductive HOp where
  | unreg (h : Nat)
  | hraise
  deriving DecidableEq, Repr

/-- The `Dispatcher` state: `handlers`, `to_remove` and `is_running_handlers`,
exactly the three attributes set up in `__init__` (there both sets start empty
and the flag false). -/
structure Dispatcher where
  handlers : List Nat
  to_remove : List Nat
  is_running_handlers : Bool
  deriving DecidableEq, Repr

/-- `Dispatcher.__init__`. -/
def Dispatcher.mkEmpty : Dispatcher := ⟨[], [], false⟩

/-- `Dispatcher.register`: `self.handlers.add(handler)` (set semantics: adding
a present element changes nothing). -/
def register (d : Dispatcher) (h : Nat) : Dispatcher :=
  if h ∈ d.handlers then d else { d with handlers := d.handlers ++ [h] }

/-- `Dispatcher.unregister`: immediate `set.remove` when no broadcast runs
(`none` models the `KeyError` on an absent handler), deferred via
`to_remove.add` while one does. -/
def unregister (d : Dispatcher) (h : Nat) : Option Dispatcher :=
  if d.is_running_handlers then
    some { d with to_remove := if h ∈ d.to_remove then d.to_remove else d.to_remove ++ [h] }
  else if h ∈ d.handlers then
    some { d with handlers := d.handlers.filter (· ≠ h) }
  else none

/-- Run the dispatcher calls one handler invocation makes, in order.  Returns
the state reached and whether the invocation completed (false = it raised; a
`KeyError` out of a re-entrant `unregister` also propagates as an exception). -/
def runOps : Dispatcher → List HOp → Dispatcher × Bool
  | d, [] => (d, true)
  | d, HOp.unreg n :: rest =>
    match unregister d n with
    | some d2 => runOps d2 rest
    | none => (d, false)
  | d, HOp.hraise :: _ => (d, false)

/-- The `for handler in self.handlers` loop of `Dispatcher.fire`: invoke each
handler in turn with the same arguments, recording the invocation; stop at the
first handler that raises. -/
def fireLoop (beh : Nat → List HOp) (args : List Nat) :
    List Nat → Dispatcher → List (Nat × List Nat) → Dispatcher × List (Nat × List Nat) × Bool
  | [], d, tr => (d, tr, true)
  | h :: hs, d, tr =>
    match runOps d (beh h) with
    | (d2, true) => fireLoop beh args hs d2 (tr ++ [(h, args)])
    | (d2, false) => (d2, tr ++ [(h, args)], false)

/-- `Dispatcher.fire`: set `is_running_handlers`, run the loop, and — only when
no handler raised — clear the flag, apply `self.handlers -= self.to_remove`,
and reset `to_remove`.  (The flag reset and the deferred removals sit after the
loop with no `finally`, so an exception skips them.) -/
def fire (beh : Nat → List HOp) (args : List Nat) (d : Dispatcher) :
    Dispatcher × List (Nat × List Nat) × Bool :=
  let d1 : Dispatcher := { d with is_running_handlers := true }
  let out := fireLoop beh args d1.handlers d1 []
  if out.2.2 then
    (⟨out.1.handlers.filter (· ∉ out.1.to_remove), [], false⟩, out.2.1, true)
  else (out.1, out.2.1, false)

/-! ### Invariants of the broadcast loop -/

/-- While the broadcast flag is set, a handler invocation can touch only
`to_remove`: `handlers` and the flag are preserved, and `to_remove` only
grows.  Holds whether or not the invocation raises. -/
theorem runOps_running (d : Dispatcher) (ops : List HOp)
    (hrun : d.is_running_handlers = true) :
    (runOps d ops).1.handlers = d.handlers ∧
    (runOps d ops).1.is_running_handlers = true ∧
    ∀ x ∈ d.to_remove, x ∈ (runOps d ops).1.to_remove := by
  induction ops generalizing d with
  | nil => exact ⟨rfl, hrun, fun x hx => hx⟩
  | cons op rest ih =>
    cases op with
    | hraise => exact ⟨rfl, hrun, fun x hx => hx⟩
    | unreg n =>
      obtain ⟨hl, tb, flag⟩ := d
      cases flag with
      | false => exact Bool.noConfusion hrun
      | true =>
        have hstep : runOps ⟨hl, tb, true⟩ (HOp.unreg n :: rest) =
            runOps ⟨hl, (if n ∈ tb then tb else tb ++ [n]), true⟩ rest := by
          simp [runOps, unregister]
        rw [hstep]
        have h2 := ih ⟨hl, (if n ∈ tb then tb else tb ++ [n]), true⟩ rfl
        refine ⟨h2.1, h2.2.1, fun x hx => h2.2.2 x ?_⟩
        by_cases hn : n ∈ tb <;> simp [hn, hx]

/-- While the broadcast flag is set, an invocation that does not raise
completes. -/
theorem runOps_ok (d : Dispatcher) (ops : List HOp)
    (hrun : d.is_running_handlers = true) (hnr : HOp.hraise ∉ ops) :
    (runOps d ops).2 = true := by
  induction ops generalizing d with
  | nil => rfl
  | cons op rest ih =>
    cases op with
    | hraise => simp at hnr
    | unreg n =>
      obtain ⟨hl, tb, flag⟩ := d
      cases flag with
      | false => exact Bool.noConfusion hrun
      | true =>
        have hstep : runOps ⟨hl, tb, true⟩ (HOp.unreg n :: rest) =
            runOps ⟨hl, (if n ∈ tb then tb else tb ++ [n]), true⟩ rest := by
          simp [runOps, unregister]
        rw [hstep]
        exact ih ⟨hl, _, true⟩ rfl (by simp at hnr; exact hnr)

/-- A re-entrant `unregister n` performed during a completed invocation lands
in `to_remove`. -/
theorem runOps_unreg_mem (d : Dispatcher) (ops : List HOp) (n : Nat)
    (hrun : d.is_running_handlers = true) (hnr : HOp.hraise ∉ ops)
    (hm : HOp.unreg n ∈ ops) :
    n ∈ (runOps d ops).1.to_remove := by
  induction ops generalizing d with
  | nil => simp at hm
  | cons op rest ih =>
    cases op with
    | hraise => simp at hnr
    | unreg m =>
      obtain ⟨hl, tb, flag⟩ := d
      cases flag with
      | false => exact Bool.noConfusion hrun
      | true =>
        have hnr2 : HOp.hraise ∉ rest := by simp at hnr; exact hnr
        have hstep : runOps ⟨hl, tb, true⟩ (HOp.unreg m :: rest) =
            runOps ⟨hl, (if m ∈ tb then tb else tb ++ [m]), true⟩ rest := by
          simp [runOps, unregister]
        rw [hstep]
        rcases List.mem_cons.mp hm with heq | hm2
        · injection heq with h
          subst h
          have hmem : n ∈ (if n ∈ tb then tb else tb ++ [n]) := by
            by_cases hn : n ∈ tb <;> simp [hn]
          exact (runOps_running ⟨hl, _, true⟩ rest rfl).2.2 n hmem
        · exact ih ⟨hl, _, true⟩ rfl hnr2 hm2

/-- The loop body preserves `handlers` and the flag, and grows `to_remove`,
regardless of raising. -/
theorem fireLoop_running (beh : Nat → List HOp) (args : List Nat) (hs : List Nat)
    (d : Dispatcher) (tr : List (Nat × List Nat))
    (hrun : d.is_running_handlers = true) :
    (fireLoop beh args hs d tr).1.handlers = d.handlers ∧
    (fireLoop beh args hs d tr).1.is_running_handlers = true ∧
    ∀ x ∈ d.to_remove, x ∈ (fireLoop beh args hs d tr).1.to_remove := by
  induction hs generalizing d tr with
  | nil => exact ⟨rfl, hrun, fun x hx => hx⟩
  | cons h hs ih =>
    have hro := runOps_running d (beh h) hrun
    rcases hrp : runOps d (beh h) with ⟨d2, ok⟩
    rw [hrp] at hro
    cases ok with
    | true =>
      have h3 := ih d2 (tr ++ [(h, args)]) hro.2.1
      simp only [fireLoop, hrp]
      exact ⟨hro.1 ▸ h3.1, h3.2.1, fun x hx => h3.2.2 x (hro.2.2 x hx)⟩
    | false =>
      simp only [fireLoop, hrp]
      exact hro

/-- With no handler raising, the loop completes and the trace extends by one
`(handler, args)` entry per remaining handler, in order. -/
theorem fireLoop_trace (beh : Nat → List HOp) (args : List Nat) (hs : List Nat)
    (d : Dispatcher) (tr : List (Nat × List Nat))
    (hrun : d.is_running_handlers = true)
    (hnr : ∀ h ∈ hs, HOp.hraise ∉ beh h) :
    (fireLoop beh args hs d tr).2.1 = tr ++ hs.map (fun h => (h, args)) ∧
    (fireLoop beh args hs d tr).2.2 = true := by
  induction hs generalizing d tr with
  | nil => simp [fireLoop]
  | cons h hs ih =>
    have hok : (runOps d (beh h)).2 = true :=
      runOps_ok d (beh h) hrun (hnr h (List.mem_cons_self h hs))
    have hrun2 : (runOps d (beh h)).1.is_running_handlers = true :=
      (runOps_running d (beh h) hrun).2.1
    rcases hrp : runOps d (beh h) with ⟨d2, ok⟩
    rw [hrp] at hok hrun2
    cases ok with
    | false => exact Bool.noConfusion hok
    | true =>
      simp only [fireLoop, hrp]
      have h3 := ih d2 (tr ++ [(h, args)]) hrun2
        (fun g hg => hnr g (List.mem_cons_of_mem h hg))
      simpa using h3

/-- A handler unregistered (re-entrantly) by any completed invocation of the
loop is in `to_remove` when the loop finishes. -/
theorem fireLoop_unreg_mem (beh : Nat → List HOp) (args : List Nat) (hs : List Nat)
    (d : Dispatcher) (tr : List (Nat × List Nat)) (g : Nat)
    (hrun : d.is_running_handlers = true)
    (hnr : ∀ h ∈ hs, HOp.hraise ∉ beh h)
    (hm : ∃ h ∈ hs, HOp.unreg g ∈ beh h) :
    g ∈ (fireLoop beh args hs d tr).1.to_remove := by
  induction hs generalizing d tr with
  | nil => simp at hm
  | cons h hs ih =>
    have hok : (runOps d (beh h)).2 = true :=
      runOps_ok d (beh h) hrun (hnr h (List.mem_cons_self h hs))
    have hrun2 : (runOps d (beh h)).1.is_running_handlers = true :=
      (runOps_running d (beh h) hrun).2.1
    rcases hm with ⟨g2, hg2, hops⟩
    rcases List.mem_cons.mp hg2 with rfl | hg3
    · have hmem : g ∈ (runOps d (beh g2)).1.to_remove :=
        runOps_unreg_mem d (beh g2) g hrun (hnr g2 (List.mem_cons_self g2 hs)) hops
      rcases hrp : runOps d (beh g2) with ⟨d2, ok⟩
      rw [hrp] at hok hrun2 hmem
      cases ok with
      | false => exact Bool.noConfusion hok
      | true =>
        simp only [fireLoop, hrp]
        exact (fireLoop_running beh args hs d2 _ hrun2).2.2 g hmem
    · rcases hrp : runOps d (beh h) with ⟨d2, ok⟩
      rw [hrp] at hok hrun2
      cases ok with
      | false => exact Bool.noConfusion hok
      | true =>
        simp only [fireLoop, hrp]
        exact ih d2 _ hrun2 (fun g3 hg4 => hnr g3 (List.mem_cons_of_mem h hg4))
          ⟨g2, hg3, hops⟩

/-- Every invocation the loop records names either an entry already in the
accumulated trace or a handler from the remaining iteration list.  Holds with
no assumptions, raising included. -/
theorem fireLoop_trace_mem (beh : Nat → List HOp) (args : List Nat) (hs : List Nat)
    (d : Dispatcher) (tr : List (Nat × List Nat)) :
    ∀ e ∈ (fireLoop beh args hs d tr).2.1, e ∈ tr ∨ e.1 ∈ hs := by
  induction hs generalizing d tr with
  | nil => intro e he; exact Or.inl he
  | cons h hs ih =>
    intro e he
    rcases hrp : runOps d (beh h) with ⟨d2, ok⟩
    cases ok with
    | true =>
      simp only [fireLoop, hrp] at he
      rcases ih d2 (tr ++ [(h, args)]) e he with htr | hhs
      · rcases List.mem_append.mp htr with h1 | h2
        · exact Or.inl h1
        · simp at h2
          subst h2
          exact Or.inr (List.mem_cons_self h hs)
      · exact Or.inr (List.mem_cons_of_mem h hhs)
    | false =>
      simp only [fireLoop, hrp] at he
      rcases List.mem_append.mp he with h1 | h2
      · exact Or.inl h1
      · simp at h2
        subst h2
        exact Or.inr (List.mem_cons_self h hs)

/-- `fire` with its `let` bindings expanded. -/
theorem fire_def (beh : Nat → List HOp) (args : List Nat) (d : Dispatcher) :
    fire beh args d =
      if (fireLoop beh args d.handlers { d with is_running_handlers := true } []).2.2 then
        (⟨(fireLoop beh args d.handlers
              { d with is_running_handlers := true } []).1.handlers.filter
            (· ∉ (fireLoop beh args d.handlers
              { d with is_running_handlers := true } []).1.to_remove), [], false⟩,
          (fireLoop beh args d.handlers { d with is_running_handlers := true } []).2.1, true)
      else ((fireLoop beh args d.handlers { d with is_running_handlers := true } []).1,
            (fireLoop beh args d.handlers { d with is_running_handlers := true } []).2.1,
            false) := rfl

/-- In both outcomes of `fire` the reported trace is the loop's trace. -/
theorem fire_trace (beh : Nat → List HOp) (args : List Nat) (d : Dispatcher) :
    (fire beh args d).2.1 =
      (fireLoop beh args d.handlers { d with is_running_handlers := true } []).2.1 := by
  rw [fire_def]
  split <;> rfl

/-- With no registered handler raising, `fire` completes, its trace is one
`(handler, args)` invocation per registered handler in order, the flag is
cleared, the deferred removals are applied, and `to_remove` is reset. -/
theorem fire_complete (beh : Nat → List HOp) (args : List Nat) (d : Dispatcher)
    (hnr : ∀ h ∈ d.handlers, HOp.hraise ∉ beh h) :
    (fire beh args d).2.1 = d.handlers.map (fun h => (h, args)) ∧
    (fire beh args d).2.2 = true ∧
    (fire beh args d).1.is_running_handlers = false ∧
    (fire beh args d).1.to_remove = [] ∧
    (fire beh args d).1.handlers =
      (fireLoop beh args d.handlers { d with is_running_handlers := true } []).1.handlers.filter
        (· ∉ (fireLoop beh args d.handlers { d with is_running_handlers := true } []).1.to_remove) := by
  have hfl := fireLoop_trace beh args d.handlers { d with is_running_handlers := true } [] rfl hnr
  rw [fire_def, if_pos hfl.2]
  exact ⟨by simpa using hfl.1, rfl, rfl, rfl, rfl⟩

/-- A handler re-entrantly unregistered during a completed `fire` is gone from
the registration set afterwards. -/
theorem fire_removes (beh : Nat → List HOp) (args : List Nat) (d : Dispatcher) (g : Nat)
    (hnr : ∀ h ∈ d.handlers, HOp.hraise ∉ beh h)
    (hex : ∃ h ∈ d.handlers, HOp.unreg g ∈ beh h) :
    g ∉ (fire beh args d).1.handlers := by
  have hrm := fireLoop_unreg_mem beh args d.handlers
    { d with is_running_handlers := true } [] g rfl hnr hex
  rw [(fire_complete beh args d hnr).2.2.2.2]
  intro hg
  rcases List.mem_filter.mp hg with ⟨_, hdec⟩
  simp at hdec
  exact hdec hrm

/-- In the image of a duplicate-free handler list under pairing with fixed
arguments, each member occurs exactly once. -/
theorem countP_pair_map (l : List Nat) (args : List Nat) (h : Nat)
    (hnd : l.Nodup) (hh : h ∈ l) :
    (l.map (fun x => (x, args))).countP (fun e => decide (e = (h, args))) = 1 := by
  induction l with
  | nil => simp at hh
  | cons a l ih =>
    rw [List.map_cons, List.countP_cons]
    rcases List.mem_cons.mp hh with rfl | hmem
    · have hnotin : h ∉ l := (List.nodup_cons.mp hnd).1
      have h0 : (l.map (fun x => (x, args))).countP (fun e => decide (e = (h, args))) = 0 := by
        rw [List.countP_eq_zero]
        intro e he
        rcases List.mem_map.mp he with ⟨x, hx, rfl⟩
        simp only [decide_eq_true_eq, Prod.mk.injEq]
        intro hxh
        exact absurd (hxh.1 ▸ hx) hnotin
      simp [h0]
    · have hne : a ≠ h := fun hc => (List.nodup_cons.mp hnd).1 (hc ▸ hmem)
      rw [ih (List.nodup_cons.mp hnd).2 hmem]
      simp [hne]

/-! ### Claim theorems for the dispatcher -/

/-- **C4.** With no handler raising: (1) every handler registered when a fire
begins is invoked exactly once during that fire, with identical arguments;
(2) a handler unregistered during the fire — including from inside its own
invocation — is still invoked in the current fire (part 1 covers it, being
registered at fire start) but is removed from the registration set when the
fire completes; (3) hence no subsequent fire invokes it; and (4) registering an
already-present handler is a no-op. -/
theorem c4_dispatcher_exactly_once :
    (∀ (d : Dispatcher) (beh : Nat → List HOp) (args : List Nat),
      d.handlers.Nodup →
      (∀ h ∈ d.handlers, HOp.hraise ∉ beh h) →
      (fire beh args d).2.1 = d.handlers.map (fun h => (h, args)) ∧
      (fire beh args d).2.2 = true ∧
      ∀ h ∈ d.handlers,
        ((fire beh args d).2.1).countP (fun e => decide (e = (h, args))) = 1) ∧
    (∀ (d : Dispatcher) (beh : Nat → List HOp) (args : List Nat) (g : Nat),
      (∀ h ∈ d.handlers, HOp.hraise ∉ beh h) →
      (∃ h ∈ d.handlers, HOp.unreg g ∈ beh h) →
      g ∉ (fire beh args d).1.handlers) ∧
    (∀ (d : Dispatcher) (beh beh2 : Nat → List HOp) (args args2 : List Nat) (g : Nat),
      (∀ h ∈ d.handlers, HOp.hraise ∉ beh h) →
      (∃ h ∈ d.handlers, HOp.unreg g ∈ beh h) →
      ∀ e ∈ (fire beh2 args2 (fire beh args d).1).2.1, e.1 ≠ g) ∧
    (∀ (d : Dispatcher) (h : Nat), h ∈ d.handlers → register d h = d) := by
  refine ⟨?_, fun d beh args g => fire_removes beh args d g, ?_, ?_⟩
  · intro d beh args hnd hnr
    have hc := fire_complete beh args d hnr
    refine ⟨hc.1, hc.2.1, fun h hh => ?_⟩
    rw [hc.1]
    exact countP_pair_map d.handlers args h hnd hh
  · intro d beh beh2 args args2 g hnr hex e he
    have hg : g ∉ (fire beh args d).1.handlers := fire_removes beh args d g hnr hex
    rw [fire_trace] at he
    rcases fireLoop_trace_mem beh2 args2 _ _ _ e he with h1 | h2
    · simp at h1
    · intro hcontra
      exact hg (hcontra ▸ h2)
  · intro d h hh
    simp [register, hh]

/-- **C4 witness.** Dispatcher with handlers `{1, 2}`; handler 1 unregisters
itself from inside its own invocation.  The fire with arguments `[1,2,3]`
still invokes both handlers once; 1 is gone afterwards; a second fire does not
invoke it; re-registering a present handler changes nothing. -/
theorem c4_dispatcher_exactly_once_witness :
    ((fire (fun h => if h = 1 then [HOp.unreg 1] else []) [1, 2, 3] ⟨[1, 2], [], false⟩).2.1 =
        ([1, 2] : List Nat).map (fun h => (h, [1, 2, 3])) ∧
      (fire (fun h => if h = 1 then [HOp.unreg 1] else []) [1, 2, 3] ⟨[1, 2], [], false⟩).2.2 = true ∧
      ∀ h ∈ ([1, 2] : List Nat),
        ((fire (fun h => if h = 1 then [HOp.unreg 1] else []) [1, 2, 3]
          ⟨[1, 2], [], false⟩).2.1).countP (fun e => decide (e = (h, [1, 2, 3]))) = 1) ∧
    (1 ∉ (fire (fun h => if h = 1 then [HOp.unreg 1] else []) [1, 2, 3]
        ⟨[1, 2], [], false⟩).1.handlers) ∧
    (∀ e ∈ (fire (fun h => if h = 1 then [HOp.unreg 1] else []) [4, 5]
        (fire (fun h => if h = 1 then [HOp.unreg 1] else []) [1, 2, 3]
          ⟨[1, 2], [], false⟩).1).2.1, e.1 ≠ 1) ∧
    register ⟨[1, 2], [], false⟩ 1 = ⟨[1, 2], [], false⟩ :=
  ⟨c4_dispatcher_exactly_once.1 ⟨[1, 2], [], false⟩ _ _ (by decide) (by decide),
   c4_dispatcher_exactly_once.2.1 ⟨[1, 2], [], false⟩ _ [1, 2, 3] 1 (by decide) (by decide),
   c4_dispatcher_exactly_once.2.2.1 ⟨[1, 2], [], false⟩ _ _ [1, 2, 3] [4, 5] 1
     (by decide) (by decide),
   c4_dispatcher_exactly_once.2.2.2 ⟨[1, 2], [], false⟩ 1 (by decide)⟩

/-- **C10.** If a handler raises during `fire`, the exception propagates with
the `is_running_handlers` flag left set and the pending deferred removals
unapplied (the registration set is untouched); every subsequent `unregister` on
such a state is silently deferred into `to_remove` — the handler is not removed
and no not-found error is possible, even for absent handlers — until some later
`fire` completes without raising, which clears the flag, applies the pending
removals, and resets `to_remove`. -/
theorem c10_raise_poisons_dispatcher :
    (∀ (d : Dispatcher) (beh : Nat → List HOp) (args : List Nat),
      (fire beh args d).2.2 = false →
      (fire beh args d).1.is_running_handlers = true ∧
      (fire beh args d).1.handlers = d.handlers) ∧
    (∀ (d : Dispatcher) (h : Nat), d.is_running_handlers = true →
      unregister d h = some { d with
        to_remove := if h ∈ d.to_remove then d.to_remove else d.to_remove ++ [h] }) ∧
    (∀ (d : Dispatcher) (beh : Nat → List HOp) (args : List Nat),
      (∀ h ∈ d.handlers, HOp.hraise ∉ beh h) →
      (fire beh args d).2.2 = true ∧
      (fire beh args d).1.is_running_handlers = false ∧
      (fire beh args d).1.to_remove = [] ∧
      ∀ g ∈ d.to_remove, g ∉ (fire beh args d).1.handlers) := by
  refine ⟨?_, ?_, ?_⟩
  · intro d beh args hfail
    have hfr := fireLoop_running beh args d.handlers
      { d with is_running_handlers := true } [] rfl
    rw [fire_def] at hfail ⊢
    rcases hok : (fireLoop beh args d.handlers { d with is_running_handlers := true } []).2.2
    · simp only [Bool.false_eq_true, if_false]
      exact ⟨hfr.2.1, hfr.1⟩
    · simp [hok] at hfail
  · intro d h hrun
    simp [unregister, hrun]
  · intro d beh args hnr
    have hc := fire_complete beh args d hnr
    have hfr := fireLoop_running beh args d.handlers
      { d with is_running_handlers := true } [] rfl
    refine ⟨hc.2.1, hc.2.2.1, hc.2.2.2.1, fun g hg => ?_⟩
    rw [hc.2.2.2.2]
    intro hmem
    rcases List.mem_filter.mp hmem with ⟨_, hdec⟩
    simp at hdec
    exact hdec (hfr.2.2 g hg)

/-- **C10 witness.** Handler 1 raises during a fire on `⟨[1], [], false⟩`: the
flag stays set and the set is untouched.  On the poisoned state, unregistering
the absent handler 5 is silently deferred.  A later clean fire on a poisoned
state `⟨[1, 2], [2], true⟩` completes, clears the flag, and applies the pending
removal of 2. -/
theorem c10_raise_poisons_dispatcher_witness :
    ((fire (fun _ => [HOp.hraise]) [] ⟨[1], [], false⟩).1.is_running_handlers = true ∧
      (fire (fun _ => [HOp.hraise]) [] ⟨[1], [], false⟩).1.handlers =
        (⟨[1], [], false⟩ : Dispatcher).handlers) ∧
    unregister (fire (fun _ => [HOp.hraise]) [] ⟨[1], [], false⟩).1 5 =
      some { (fire (fun _ => [HOp.hraise]) [] ⟨[1], [], false⟩).1 with
        to_remove := if 5 ∈ (fire (fun _ => [HOp.hraise]) [] ⟨[1], [], false⟩).1.to_remove
          then (fire (fun _ => [HOp.hraise]) [] ⟨[1], [], false⟩).1.to_remove
          else (fire (fun _ => [HOp.hraise]) [] ⟨[1], [], false⟩).1.to_remove ++ [5] } ∧
    ((fire (fun _ => []) [] ⟨[1, 2], [2], true⟩).2.2 = true ∧
      (fire (fun _ => []) [] ⟨[1, 2], [2], true⟩).1.is_running_handlers = false ∧
      (fire (fun _ => []) [] ⟨[1, 2], [2], true⟩).1.to_remove = [] ∧
      ∀ g ∈ (⟨[1, 2], [2], true⟩ : Dispatcher).to_remove,
        g ∉ (fire (fun _ => []) [] ⟨[1, 2], [2], true⟩).1.handlers) :=
  ⟨c10_raise_poisons_dispatcher.1 ⟨[1], [], false⟩ _ [] (by decide),
   c10_raise_poisons_dispatcher.2.1 _ 5 (by decide),
   c10_raise_poisons_dispatcher.2.2 ⟨[1, 2], [2], true⟩ _ [] (by decide)⟩

/-! ## The timestamp parser (`rcon/util.py`, `parse_timestamp`)

The scan walks the byte string once, accumulating digit runs and capturing the
six fields at `/`, the first space, and `:` separators in positional order;
every other byte is skipped.  `datetime.datetime` is modelled by a validating
constructor over the proleptic Gregorian calendar ranges CPython enforces. -/

/-- `char in b'0123456789'`. -/
def isDigitByte (c : Nat) : Bool := 48 ≤ c && c ≤ 57

/-- The numeric value of a digit run (what `int` returns on it). -/
def digitsVal (l : List Nat) : Nat := l.foldl (fun acc c => acc * 10 + (c - 48)) 0

/-- Python `int(bytes(int_buffer))`: the buffer only ever holds digit bytes;
`int(b'')` raises `ValueError`, modelled by `none`. -/
def digitsToNat (l : List Nat) : Option Nat :=
  if l.isEmpty then none else some (digitsVal l)

/-- The loop state of `parse_timestamp`: the `int_buffer` and the five fields
that may have been captured so far (`second` is captured at the `break`). -/
structure TSAcc where
  ib : List Nat
  month : Option Nat
  day : Option Nat
  year : Option Nat
  hour : Option Nat
  minute : Option Nat
  deriving DecidableEq, Repr

/-- `datetime.datetime`-style timestamp value. -/
structure PyDatetime where
  year : Nat
  month : Nat
  day : Nat
  hour : Nat
  minute : Nat
  second : Nat
  deriving DecidableEq, Repr

def isLeapYear (y : Nat) : Bool := y % 4 = 0 && (y % 100 ≠ 0 || y % 400 = 0)

def daysInMonth (y m : Nat) : Nat :=
  if m = 2 then (if isLeapYear y then 29 else 28)
  else if m = 4 ∨ m = 6 ∨ m = 9 ∨ m = 11 then 30
  else 31

/-- `datetime.datetime(year, month, day, hour, minute, second)`: `none` models
the `ValueError` CPython raises on out-of-range fields. -/
def datetimeNew (y mo d h mi s : Nat) : Option PyDatetime :=
  if 1 ≤ y ∧ y ≤ 9999 ∧ 1 ≤ mo ∧ mo ≤ 12 ∧ 1 ≤ d ∧ d ≤ daysInMonth y mo ∧
      h ≤ 23 ∧ mi ≤ 59 ∧ s ≤ 59 then
    some ⟨y, mo, d, h, mi, s⟩
  else none

/-- The `for idx, char in enumerate(buffer)` scan of `parse_timestamp`.  On the
`break` (seconds captured at a `:`), returns the five optional fields, the
seconds value, and the index of that `:`.  `none` models `int(b'')` failing at
a capture, or the loop exhausting the buffer without a break (in which case
`datetime.datetime` is called with a `None` second — `TypeError` — or `idx` is
unbound). -/
def tsLoop : List Nat → Nat → TSAcc →
    Option ((Option Nat × Option Nat × Option Nat × Option Nat × Option Nat) × Nat × Nat)
  | [], _, _ => none
  | c :: rest, idx, st =>
    if c = 47 then
      match st.month with
      | none =>
        match digitsToNat st.ib with
        | none => none
        | some v => tsLoop rest (idx + 1) { st with ib := [], month := some v }
      | some _ =>
        match st.day with
        | none =>
          match digitsToNat st.ib with
          | none => none
          | some v => tsLoop rest (idx + 1) { st with ib := [], day := some v }
        | some _ => tsLoop rest (idx + 1) st
    else if c = 32 then
      match st.year with
      | none =>
        match digitsToNat st.ib with
        | none => none
        | some v => tsLoop rest (idx + 1) { st with ib := [], year := some v }
      | some _ => tsLoop rest (idx + 1) st
    else if c = 58 then
      match st.hour with
      | none =>
        match digitsToNat st.ib with
        | none => none
        | some v => tsLoop rest (idx + 1) { st with ib := [], hour := some v }
      | some _ =>
        match st.minute with
        | none =>
          match digitsToNat st.ib with
          | none => none
          | some v => tsLoop rest (idx + 1) { st with ib := [], minute := some v }
        | some _ =>
          match digitsToNat st.ib with
          | none => none
          | some v => some ((st.month, st.day, st.year, st.hour, st.minute), v, idx)
    else if isDigitByte c then tsLoop rest (idx + 1) { st with ib := st.ib ++ [c] }
    else tsLoop rest (idx + 1) st

/-- `parse_timestamp`: run the scan, build the timestamp from the six fields in
positional order (`datetime.datetime(year, month, day, hour, minute, second)`),
and return it with `buffer[idx + 2:]` — everything after the breaking `:` and
the one byte following it. -/
def parse_timestamp (buffer : List Nat) : Option (PyDatetime × List Nat) :=
  match tsLoop buffer 0 ⟨[], none, none, none, none, none⟩ with
  | none => none
  | some ((mo, d, y, h, mi), s, idx) =>
    match mo, d, y, h, mi with
    | some mo, some d, some y, some h, some mi =>
      match datetimeNew y mo d h mi s with
      | none => none
      | some ts => some (ts, buffer.drop (idx + 2))
    | _, _, _, _, _ => none

/-! ### Stepping lemmas for the scan -/

theorem digitsToNat_ne_nil (l : List Nat) (h : l ≠ []) :
    digitsToNat l = some (digitsVal l) := by
  cases l with
  | nil => exact absurd rfl h
  | cons a l => rfl

/-- A run of digit bytes only extends the `int_buffer`. -/
theorem tsLoop_digits (L : List Nat) (hL : ∀ b ∈ L, isDigitByte b = true) :
    ∀ (r : List Nat) (idx : Nat) (ib : List Nat) (mo d y h mi : Option Nat),
    tsLoop (L ++ r) idx ⟨ib, mo, d, y, h, mi⟩ =
      tsLoop r (idx + L.length) ⟨ib ++ L, mo, d, y, h, mi⟩ := by
  induction L with
  | nil => intro r idx ib mo d y h mi; simp
  | cons c L ih =>
    intro r idx ib mo d y h mi
    have hc := hL c (List.mem_cons_self c L)
    have h47 : ¬(c = 47) := by simp [isDigitByte] at hc; omega
    have h32 : ¬(c = 32) := by simp [isDigitByte] at hc; omega
    have h58 : ¬(c = 58) := by simp [isDigitByte] at hc; omega
    have hstep : tsLoop ((c :: L) ++ r) idx ⟨ib, mo, d, y, h, mi⟩ =
        tsLoop (L ++ r) (idx + 1) ⟨ib ++ [c], mo, d, y, h, mi⟩ := by
      simp [tsLoop, h47, h32, h58, hc]
    rw [hstep, ih (fun b hb => hL b (List.mem_cons_of_mem c hb))]
    have e1 : idx + 1 + L.length = idx + (c :: L).length := by simp; omega
    have e2 : (ib ++ [c]) ++ L = ib ++ (c :: L) := by simp
    rw [e1, e2]

/-- Bytes that are neither digits, `/`, space, nor `:` are skipped, whatever
the state. -/
theorem tsLoop_other (L : List Nat)
    (hL : ∀ b ∈ L, isDigitByte b = false ∧ b ≠ 47 ∧ b ≠ 32 ∧ b ≠ 58) :
    ∀ (r : List Nat) (idx : Nat) (st : TSAcc),
    tsLoop (L ++ r) idx st = tsLoop r (idx + L.length) st := by
  induction L with
  | nil => intro r idx st; simp
  | cons c L ih =>
    intro r idx st
    obtain ⟨hd, h47, h32, h58⟩ := hL c (List.mem_cons_self c L)
    have hstep : tsLoop ((c :: L) ++ r) idx st = tsLoop (L ++ r) (idx + 1) st := by
      simp [tsLoop, h47, h32, h58, hd]
    rw [hstep, ih (fun b hb => hL b (List.mem_cons_of_mem c hb))]
    have e1 : idx + 1 + L.length = idx + (c :: L).length := by simp; omega
    rw [e1]

/-- Once month, day and year are captured, any run without digits or `:` is
skipped (slashes and further spaces fall into exhausted branches). -/
theorem tsLoop_sep (L : List Nat)
    (hL : ∀ b ∈ L, isDigitByte b = false ∧ b ≠ 58) :
    ∀ (r : List Nat) (idx : Nat) (ib : List Nat) (mo d y : Nat) (h mi : Option Nat),
    tsLoop (L ++ r) idx ⟨ib, some mo, some d, some y, h, mi⟩ =
      tsLoop r (idx + L.length) ⟨ib, some mo, some d, some y, h, mi⟩ := by
  induction L with
  | nil => intro r idx ib mo d y h mi; simp
  | cons c L ih =>
    intro r idx ib mo d y h mi
    obtain ⟨hd, h58⟩ := hL c (List.mem_cons_self c L)
    have hstep : tsLoop ((c :: L) ++ r) idx ⟨ib, some mo, some d, some y, h, mi⟩ =
        tsLoop (L ++ r) (idx + 1) ⟨ib, some mo, some d, some y, h, mi⟩ := by
      by_cases h47 : c = 47
      · subst h47; simp [tsLoop]
      · by_cases h32 : c = 32
        · subst h32; simp [tsLoop]
        · simp [tsLoop, h47, h32, h58, hd]
    rw [hstep, ih (fun b hb => hL b (List.mem_cons_of_mem c hb))]
    have e1 : idx + 1 + L.length = idx + (c :: L).length := by simp; omega
    rw [e1]

/-- Capture of the month at the first `/`. -/
theorem tsLoop_cap_month (r : List Nat) (idx : Nat) (ib : List Nat) (hib : ib ≠ [])
    (d y h mi : Option Nat) :
    tsLoop (47 :: r) idx ⟨ib, none, d, y, h, mi⟩ =
      tsLoop r (idx + 1) ⟨[], some (digitsVal ib), d, y, h, mi⟩ := by
  simp [tsLoop, digitsToNat_ne_nil ib hib]

/-- Capture of the day at the second `/`. -/
theorem tsLoop_cap_day (r : List Nat) (idx : Nat) (ib : List Nat) (hib : ib ≠ [])
    (mo : Nat) (y h mi : Option Nat) :
    tsLoop (47 :: r) idx ⟨ib, some mo, none, y, h, mi⟩ =
      tsLoop r (idx + 1) ⟨[], some mo, some (digitsVal ib), y, h, mi⟩ := by
  simp [tsLoop, digitsToNat_ne_nil ib hib]

/-- Capture of the year at the first space. -/
theorem tsLoop_cap_year (r : List Nat) (idx : Nat) (ib : List Nat) (hib : ib ≠ [])
    (mo d : Option Nat) (h mi : Option Nat) :
    tsLoop (32 :: r) idx ⟨ib, mo, d, none, h, mi⟩ =
      tsLoop r (idx + 1) ⟨[], mo, d, some (digitsVal ib), h, mi⟩ := by
  simp [tsLoop, digitsToNat_ne_nil ib hib]

/-- Capture of the hour at the first `:`. -/
theorem tsLoop_cap_hour (r : List Nat) (idx : Nat) (ib : List Nat) (hib : ib ≠ [])
    (mo d y : Option Nat) (mi : Option Nat) :
    tsLoop (58 :: r) idx ⟨ib, mo, d, y, none, mi⟩ =
      tsLoop r (idx + 1) ⟨[], mo, d, y, some (digitsVal ib), mi⟩ := by
  simp [tsLoop, digitsToNat_ne_nil ib hib]

/-- Capture of the minute at the second `:`. -/
theorem tsLoop_cap_minute (r : List Nat) (idx : Nat) (ib : List Nat) (hib : ib ≠ [])
    (mo d y : Option Nat) (h : Nat) :
    tsLoop (58 :: r) idx ⟨ib, mo, d, y, some h, none⟩ =
      tsLoop r (idx + 1) ⟨[], mo, d, y, some h, some (digitsVal ib)⟩ := by
  simp [tsLoop, digitsToNat_ne_nil ib hib]

/-- Capture of the second at the third `:`, where the loop breaks with the
current index. -/
theorem tsLoop_cap_second (r : List Nat) (idx : Nat) (ib : List Nat) (hib : ib ≠ [])
    (mo d y : Option Nat) (h mi : Nat) :
    tsLoop (58 :: r) idx ⟨ib, mo, d, y, some h, some mi⟩ =
      some ((mo, d, y, some h, some mi), digitsVal ib, idx) := by
  simp [tsLoop, digitsToNat_ne_nil ib hib]

/-- `parse_timestamp` on the well-formed shape
`M/D/Y<space><sep>H:Mi:S:<c><rest>` with digit-run fields and a separator free
of digits and colons: the scan captures the six fields positionally; the result
is the validated timestamp paired with `rest` (everything after the breaking
`:` and the single byte `c` after it). -/
theorem parse_timestamp_shape (M D Y H Mi S sep rest : List Nat) (c : Nat)
    (hM : M ≠ []) (hMd : ∀ b ∈ M, isDigitByte b = true)
    (hD : D ≠ []) (hDd : ∀ b ∈ D, isDigitByte b = true)
    (hY : Y ≠ []) (hYd : ∀ b ∈ Y, isDigitByte b = true)
    (hH : H ≠ []) (hHd : ∀ b ∈ H, isDigitByte b = true)
    (hMi : Mi ≠ []) (hMid : ∀ b ∈ Mi, isDigitByte b = true)
    (hS : S ≠ []) (hSd : ∀ b ∈ S, isDigitByte b = true)
    (hsep : ∀ b ∈ sep, isDigitByte b = false ∧ b ≠ 58) :
    parse_timestamp (M ++ [47] ++ D ++ [47] ++ Y ++ [32] ++ sep ++
        H ++ [58] ++ Mi ++ [58] ++ S ++ [58, c] ++ rest) =
      (match datetimeNew (digitsVal Y) (digitsVal M) (digitsVal D)
          (digitsVal H) (digitsVal Mi) (digitsVal S) with
       | none => none
       | some ts => some (ts, rest)) := by
  have hassoc : M ++ [47] ++ D ++ [47] ++ Y ++ [32] ++ sep ++
      H ++ [58] ++ Mi ++ [58] ++ S ++ [58, c] ++ rest =
      M ++ 47 :: (D ++ 47 :: (Y ++ 32 :: (sep ++
        (H ++ 58 :: (Mi ++ 58 :: (S ++ 58 :: c :: rest)))))) := by
    simp [List.append_assoc]
  unfold parse_timestamp
  rw [hassoc]
  rw [tsLoop_digits M hMd, tsLoop_cap_month _ _ _ (by simpa using hM),
    tsLoop_digits D hDd, tsLoop_cap_day _ _ _ (by simpa using hD),
    tsLoop_digits Y hYd, tsLoop_cap_year _ _ _ (by simpa using hY),
    tsLoop_sep sep hsep,
    tsLoop_digits H hHd, tsLoop_cap_hour _ _ _ (by simpa using hH),
    tsLoop_digits Mi hMid, tsLoop_cap_minute _ _ _ (by simpa using hMi),
    tsLoop_digits S hSd, tsLoop_cap_second _ _ _ (by simpa using hS)]
  have hdrop : (M ++ 47 :: (D ++ 47 :: (Y ++ 32 :: (sep ++
      (H ++ 58 :: (Mi ++ 58 :: (S ++ 58 :: c :: rest))))))).drop
      (0 + M.length + 1 + D.length + 1 + Y.length + 1 + sep.length +
        H.length + 1 + Mi.length + 1 + S.length + 2) = rest := by
    have hsplit : M ++ 47 :: (D ++ 47 :: (Y ++ 32 :: (sep ++
        (H ++ 58 :: (Mi ++ 58 :: (S ++ 58 :: c :: rest)))))) =
        (M ++ 47 :: (D ++ 47 :: (Y ++ 32 :: (sep ++
          (H ++ 58 :: (Mi ++ 58 :: (S ++ [58, c]))))))) ++ rest := by
      simp [List.append_assoc]
    rw [hsplit]
    rw [List.drop_left' (by simp; omega)]
  simp only [List.nil_append]
  rw [hdrop]

/-- **C8.** For every well-formed input `M/D/Y<space><sep>H:Mi:S: rest` with
single- or multi-digit fields and any separator free of digits and colons
between date and time (e.g. `" - "`), `parse_timestamp` returns the calendar
timestamp built from the six fields in positional order
(`datetime(year, month, day, hour, minute, second)`) and, as remainder, every
byte after the two characters (`": "`) following the seconds field. -/
theorem c8_parse_timestamp_wellformed (M D Y H Mi S sep rest : List Nat)
    (ts : PyDatetime)
    (hM : M ≠ []) (hMd : ∀ b ∈ M, isDigitByte b = true)
    (hD : D ≠ []) (hDd : ∀ b ∈ D, isDigitByte b = true)
    (hY : Y ≠ []) (hYd : ∀ b ∈ Y, isDigitByte b = true)
    (hH : H ≠ []) (hHd : ∀ b ∈ H, isDigitByte b = true)
    (hMi : Mi ≠ []) (hMid : ∀ b ∈ Mi, isDigitByte b = true)
    (hS : S ≠ []) (hSd : ∀ b ∈ S, isDigitByte b = true)
    (hsep : ∀ b ∈ sep, isDigitByte b = false ∧ b ≠ 58)
    (hts : datetimeNew (digitsVal Y) (digitsVal M) (digitsVal D)
      (digitsVal H) (digitsVal Mi) (digitsVal S) = some ts) :
    parse_timestamp (M ++ [47] ++ D ++ [47] ++ Y ++ [32] ++ sep ++
        H ++ [58] ++ Mi ++ [58] ++ S ++ [58, 32] ++ rest) = some (ts, rest) := by
  rw [parse_timestamp_shape M D Y H Mi S sep rest 32 hM hMd hD hDd hY hYd hH hHd
    hMi hMid hS hSd hsep, hts]

/-- **C8 witness.** `b"11/20/2016 - 13:05:40: rest"` parses to
`datetime(2016, 11, 20, 13, 5, 40)` with remainder `b"rest"`. -/
theorem c8_parse_timestamp_wellformed_witness :
    parse_timestamp ([49, 49] ++ [47] ++ [50, 48] ++ [47] ++ [50, 48, 49, 54] ++ [32] ++
        [45, 32] ++ [49, 51] ++ [58] ++ [48, 53] ++ [58] ++ [52, 48] ++ [58, 32] ++
        [114, 101, 115, 116]) =
      some (⟨2016, 11, 20, 13, 5, 40⟩, [114, 101, 115, 116]) :=
  c8_parse_timestamp_wellformed [49, 49] [50, 48] [50, 48, 49, 54] [49, 51] [48, 53]
    [52, 48] [45, 32] [114, 101, 115, 116] ⟨2016, 11, 20, 13, 5, 40⟩
    (by decide) (by decide) (by decide) (by decide) (by decide) (by decide)
    (by decide) (by decide) (by decide) (by decide) (by decide) (by decide)
    (by decide) (by decide)

/-- **C9 counterexample.** The month field of `b"1x/20/2016 13:05:40: rest"` is
the non-numeric byte string `"1x"` (Python's `int(b"1x")` would raise), yet
`parse_timestamp` succeeds: the scan silently skips the `x` and parses month 1.
The claim that every input with a non-numeric field fails is therefore false. -/
theorem c9_counterexample :
    parse_timestamp [49, 120, 47, 50, 48, 47, 50, 48, 49, 54, 32,
        49, 51, 58, 48, 53, 58, 52, 48, 58, 32, 114, 101, 115, 116] =
      some (⟨2016, 1, 20, 13, 5, 40⟩, [114, 101, 115, 116]) ∧
    parse_timestamp [49, 120, 47, 50, 48, 47, 50, 48, 49, 54, 32,
        49, 51, 58, 48, 53, 58, 52, 48, 58, 32, 114, 101, 115, 116] ≠ none := by
  constructor
  · rfl
  · decide

/-- **C9 (amended).** `parse_timestamp` fails whenever a field\'s accumulated
digit run is empty at its delimiter — at any of the six positions: month or
day (empty run at a `/`), year (empty run at the first space), hour, minute or
second (empty run at a `:`) — and when the numeric fields form an invalid
calendar date or time (e.g. month 13); but stray non-digit bytes inside an
otherwise digit-bearing field are skipped, not errors. -/
theorem c9_parse_timestamp_failures :
    (∀ (F r : List Nat),
      (∀ b ∈ F, isDigitByte b = false ∧ b ≠ 47 ∧ b ≠ 32 ∧ b ≠ 58) →
      parse_timestamp (F ++ 47 :: r) = none) ∧
    (∀ (M F r : List Nat),
      M ≠ [] → (∀ b ∈ M, isDigitByte b = true) →
      (∀ b ∈ F, isDigitByte b = false ∧ b ≠ 47 ∧ b ≠ 32 ∧ b ≠ 58) →
      parse_timestamp (M ++ [47] ++ F ++ [47] ++ r) = none) ∧
    (∀ (M D F r : List Nat),
      M ≠ [] → (∀ b ∈ M, isDigitByte b = true) →
      D ≠ [] → (∀ b ∈ D, isDigitByte b = true) →
      (∀ b ∈ F, isDigitByte b = false ∧ b ≠ 47 ∧ b ≠ 32 ∧ b ≠ 58) →
      parse_timestamp (M ++ [47] ++ D ++ [47] ++ F ++ [32] ++ r) = none) ∧
    (∀ (M D Y F r : List Nat),
      M ≠ [] → (∀ b ∈ M, isDigitByte b = true) →
      D ≠ [] → (∀ b ∈ D, isDigitByte b = true) →
      Y ≠ [] → (∀ b ∈ Y, isDigitByte b = true) →
      (∀ b ∈ F, isDigitByte b = false ∧ b ≠ 58) →
      parse_timestamp (M ++ [47] ++ D ++ [47] ++ Y ++ [32] ++ F ++ [58] ++ r) = none) ∧
    (∀ (M D Y sep H F r : List Nat),
      M ≠ [] → (∀ b ∈ M, isDigitByte b = true) →
      D ≠ [] → (∀ b ∈ D, isDigitByte b = true) →
      Y ≠ [] → (∀ b ∈ Y, isDigitByte b = true) →
      H ≠ [] → (∀ b ∈ H, isDigitByte b = true) →
      (∀ b ∈ sep, isDigitByte b = false ∧ b ≠ 58) →
      (∀ b ∈ F, isDigitByte b = false ∧ b ≠ 58) →
      parse_timestamp (M ++ [47] ++ D ++ [47] ++ Y ++ [32] ++ sep ++
        H ++ [58] ++ F ++ [58] ++ r) = none) ∧
    (∀ (M D Y sep H Mi F r : List Nat),
      M ≠ [] → (∀ b ∈ M, isDigitByte b = true) →
      D ≠ [] → (∀ b ∈ D, isDigitByte b = true) →
      Y ≠ [] → (∀ b ∈ Y, isDigitByte b = true) →
      H ≠ [] → (∀ b ∈ H, isDigitByte b = true) →
      Mi ≠ [] → (∀ b ∈ Mi, isDigitByte b = true) →
      (∀ b ∈ sep, isDigitByte b = false ∧ b ≠ 58) →
      (∀ b ∈ F, isDigitByte b = false ∧ b ≠ 58) →
      parse_timestamp (M ++ [47] ++ D ++ [47] ++ Y ++ [32] ++ sep ++
        H ++ [58] ++ Mi ++ [58] ++ F ++ [58] ++ r) = none) ∧
    (∀ (M D Y H Mi S sep rest : List Nat),
      M ≠ [] → (∀ b ∈ M, isDigitByte b = true) →
      D ≠ [] → (∀ b ∈ D, isDigitByte b = true) →
      Y ≠ [] → (∀ b ∈ Y, isDigitByte b = true) →
      H ≠ [] → (∀ b ∈ H, isDigitByte b = true) →
      Mi ≠ [] → (∀ b ∈ Mi, isDigitByte b = true) →
      S ≠ [] → (∀ b ∈ S, isDigitByte b = true) →
      (∀ b ∈ sep, isDigitByte b = false ∧ b ≠ 58) →
      datetimeNew (digitsVal Y) (digitsVal M) (digitsVal D)
        (digitsVal H) (digitsVal Mi) (digitsVal S) = none →
      parse_timestamp (M ++ [47] ++ D ++ [47] ++ Y ++ [32] ++ sep ++
        H ++ [58] ++ Mi ++ [58] ++ S ++ [58, 32] ++ rest) = none) := by
  refine ⟨?_, ?_, ?_, ?_, ?_, ?_, ?_⟩
  · intro F r hF
    unfold parse_timestamp
    rw [tsLoop_other F hF]
    simp [tsLoop, digitsToNat]
  · intro M F r hM hMd hF
    have hassoc : M ++ [47] ++ F ++ [47] ++ r = M ++ 47 :: (F ++ 47 :: r) := by
      simp [List.append_assoc]
    unfold parse_timestamp
    rw [hassoc, tsLoop_digits M hMd, tsLoop_cap_month _ _ _ (by simpa using hM),
      tsLoop_other F hF]
    simp [tsLoop, digitsToNat]
  · intro M D F r hM hMd hD hDd hF
    have hassoc : M ++ [47] ++ D ++ [47] ++ F ++ [32] ++ r =
        M ++ 47 :: (D ++ 47 :: (F ++ 32 :: r)) := by
      simp [List.append_assoc]
    unfold parse_timestamp
    rw [hassoc, tsLoop_digits M hMd, tsLoop_cap_month _ _ _ (by simpa using hM),
      tsLoop_digits D hDd, tsLoop_cap_day _ _ _ (by simpa using hD),
      tsLoop_other F hF]
    simp [tsLoop, digitsToNat]
  · intro M D Y F r hM hMd hD hDd hY hYd hF
    have hassoc : M ++ [47] ++ D ++ [47] ++ Y ++ [32] ++ F ++ [58] ++ r =
        M ++ 47 :: (D ++ 47 :: (Y ++ 32 :: (F ++ 58 :: r))) := by
      simp [List.append_assoc]
    unfold parse_timestamp
    rw [hassoc, tsLoop_digits M hMd, tsLoop_cap_month _ _ _ (by simpa using hM),
      tsLoop_digits D hDd, tsLoop_cap_day _ _ _ (by simpa using hD),
      tsLoop_digits Y hYd, tsLoop_cap_year _ _ _ (by simpa using hY),
      tsLoop_sep F hF]
    simp [tsLoop, digitsToNat]
  · intro M D Y sep H F r hM hMd hD hDd hY hYd hH hHd hsep hF
    have hassoc : M ++ [47] ++ D ++ [47] ++ Y ++ [32] ++ sep ++ H ++ [58] ++ F ++ [58] ++ r =
        M ++ 47 :: (D ++ 47 :: (Y ++ 32 :: (sep ++ (H ++ 58 :: (F ++ 58 :: r))))) := by
      simp [List.append_assoc]
    unfold parse_timestamp
    rw [hassoc, tsLoop_digits M hMd, tsLoop_cap_month _ _ _ (by simpa using hM),
      tsLoop_digits D hDd, tsLoop_cap_day _ _ _ (by simpa using hD),
      tsLoop_digits Y hYd, tsLoop_cap_year _ _ _ (by simpa using hY),
      tsLoop_sep sep hsep,
      tsLoop_digits H hHd, tsLoop_cap_hour _ _ _ (by simpa using hH),
      tsLoop_sep F hF]
    simp [tsLoop, digitsToNat]
  · intro M D Y sep H Mi F r hM hMd hD hDd hY hYd hH hHd hMi hMid hsep hF
    have hassoc : M ++ [47] ++ D ++ [47] ++ Y ++ [32] ++ sep ++
        H ++ [58] ++ Mi ++ [58] ++ F ++ [58] ++ r =
        M ++ 47 :: (D ++ 47 :: (Y ++ 32 :: (sep ++
          (H ++ 58 :: (Mi ++ 58 :: (F ++ 58 :: r)))))) := by
      simp [List.append_assoc]
    unfold parse_timestamp
    rw [hassoc, tsLoop_digits M hMd, tsLoop_cap_month _ _ _ (by simpa using hM),
      tsLoop_digits D hDd, tsLoop_cap_day _ _ _ (by simpa using hD),
      tsLoop_digits Y hYd, tsLoop_cap_year _ _ _ (by simpa using hY),
      tsLoop_sep sep hsep,
      tsLoop_digits H hHd, tsLoop_cap_hour _ _ _ (by simpa using hH),
      tsLoop_digits Mi hMid, tsLoop_cap_minute _ _ _ (by simpa using hMi),
      tsLoop_sep F hF]
    simp [tsLoop, digitsToNat]
  · intro M D Y H Mi S sep rest hM hMd hD hDd hY hYd hH hHd hMi hMid hS hSd hsep hts
    rw [parse_timestamp_shape M D Y H Mi S sep rest 32 hM hMd hD hDd hY hYd hH hHd
      hMi hMid hS hSd hsep, hts]

/-- **C9 (amended) witness.** Digit-free runs at each of the six field
delimiters fail — month `b"xx/"`, day `b"1/xx/"`, year `b"1/2/xx "`, hour
`b"1/2/2016 :"`, minute `b"1/2/2016 13:xx:"`, second `b"1/2/2016 13:5:xx:"`
— and the numerically valid but calendar-invalid month 13 fails. -/
theorem c9_parse_timestamp_failures_witness :
    parse_timestamp ([120, 120] ++ 47 :: [50, 48, 47, 50, 48, 49, 54, 32,
        49, 51, 58, 48, 53, 58, 52, 48, 58, 32, 114, 101, 115, 116]) = none ∧
    parse_timestamp ([49] ++ [47] ++ [120, 120] ++ [47] ++
        [50, 48, 49, 54, 32, 49, 51, 58, 48, 53, 58, 52, 48, 58, 32]) = none ∧
    parse_timestamp ([49] ++ [47] ++ [50] ++ [47] ++ [120, 120] ++ [32] ++
        [49, 51, 58, 48, 53, 58, 52, 48, 58, 32]) = none ∧
    parse_timestamp ([49] ++ [47] ++ [50] ++ [47] ++ [50, 48, 49, 54] ++ [32] ++
        [120, 120] ++ [58] ++ [48, 53, 58, 52, 48, 58, 32]) = none ∧
    parse_timestamp ([49] ++ [47] ++ [50] ++ [47] ++ [50, 48, 49, 54] ++ [32] ++
        [45, 32] ++ [49, 51] ++ [58] ++ [120, 120] ++ [58] ++ [52, 48, 58, 32]) = none ∧
    parse_timestamp ([49] ++ [47] ++ [50] ++ [47] ++ [50, 48, 49, 54] ++ [32] ++
        [45, 32] ++ [49, 51] ++ [58] ++ [53] ++ [58] ++ [120, 120] ++ [58] ++
        [32, 114]) = none ∧
    parse_timestamp ([49, 51] ++ [47] ++ [50, 48] ++ [47] ++ [50, 48, 49, 54] ++ [32] ++
        [45, 32] ++ [49, 51] ++ [58] ++ [48, 53] ++ [58] ++ [52, 48] ++ [58, 32] ++
        [114, 101, 115, 116]) = none :=
  ⟨c9_parse_timestamp_failures.1 [120, 120] _ (by decide),
   c9_parse_timestamp_failures.2.1 [49] [120, 120] _
     (by decide) (by decide) (by decide),
   c9_parse_timestamp_failures.2.2.1 [49] [50] [120, 120] _
     (by decide) (by decide) (by decide) (by decide) (by decide),
   c9_parse_timestamp_failures.2.2.2.1 [49] [50] [50, 48, 49, 54] [120, 120] _
     (by decide) (by decide) (by decide) (by decide) (by decide) (by decide)
     (by decide),
   c9_parse_timestamp_failures.2.2.2.2.1 [49] [50] [50, 48, 49, 54] [45, 32]
     [49, 51] [120, 120] _
     (by decide) (by decide) (by decide) (by decide) (by decide) (by decide)
     (by decide) (by decide) (by decide) (by decide),
   c9_parse_timestamp_failures.2.2.2.2.2.1 [49] [50] [50, 48, 49, 54] [45, 32]
     [49, 51] [53] [120, 120] _
     (by decide) (by decide) (by decide) (by decide) (by decide) (by decide)
     (by decide) (by decide) (by decide) (by decide) (by decide) (by decide),
   c9_parse_timestamp_failures.2.2.2.2.2.2 [49, 51] [50, 48] [50, 48, 49, 54]
     [49, 51] [48, 53] [52, 48] [45, 32] [114, 101, 115, 116]
     (by decide) (by decide) (by decide) (by decide) (by decide) (by decide)
     (by decide) (by decide) (by decide) (by decide) (by decide) (by decide)
     (by decide) (by decide)⟩

/-! ## The log socket (`rcon/log_parser.py`, `LogSocket.start`)

The receive loop is modelled over a list of events — each wake-up of the
`epoll`/`recvfrom` point delivers either a datagram chunk or an external
`KeyboardInterrupt`.  What the registered handlers *do* is abstracted by
`stopOn`, which says on which `(timestamp, message)` records some handler
invokes `stop()` during its invocation.  The model returns the full broadcast
trace; `none` stands for the situations in which `start` never returns
normally: blocking forever on an exhausted event list, a `parse_timestamp`
exception escaping, or `stop()` called on an already-closed socket
(`AttributeError` on `None.close()`). -/

inductive LogEvent where
  | chunk (data : List Nat)
  | interrupt
  deriving DecidableEq, Repr

/-- One dispatched record: `(timestamp, message)`, or `(None, None)` for the
terminating sentinel. -/
structure LogRecord where
  ts : Option PyDatetime
  msg : Option (List Nat)
  deriving DecidableEq, Repr

/-- The `(None, None)` end-of-stream sentinel. -/
def sentinelRecord : LogRecord := ⟨none, none⟩

/-- `*messages, self.buffer = self.buffer.split(b'\0')`: the complete
NUL-terminated frames, and the trailing partial frame that becomes the new
buffer. -/
def splitFrames : List Nat → List (List Nat) × List Nat
  | [] => ([], [])
  | c :: rest =>
    let (ms, buf) := splitFrames rest
    if c = 0 then ([] :: ms, buf)
    else
      match ms with
      | [] => ([], c :: buf)
      | m :: ms2 => ((c :: m) :: ms2, buf)

/-- The `for message in messages` body of `LogSocket.start`: strip the 7-byte
header (`message[7:-1]` also drops the trailing newline), parse the timestamp,
and fire the record through the dispatcher; a handler may call `stop()`
(tracked by the open flag — all messages of the wake-up are still processed
after a stop, exactly as in the source, where the open check sits after the
loop).  `none` models a `parse_timestamp` exception or `stop()` on an
already-closed socket. -/
def processFrames (stopOn : PyDatetime → List Nat → Bool) :
    List (List Nat) → Bool → Option (List LogRecord × Bool)
  | [], opened => some ([], opened)
  | m :: ms, opened =>
    match parse_timestamp ((m.drop 7).dropLast) with
    | none => none
    | some (ts, msg) =>
      if stopOn ts msg && !opened then none
      else
        match processFrames stopOn ms (opened && !(stopOn ts msg)) with
        | none => none
        | some (recs, op2) => some (⟨some ts, some msg⟩ :: recs, op2)

/-- `LogSocket.start` over the event list, carrying the receive buffer.  On a
chunk: append to the buffer, split off complete frames, fire each; exit the
loop if a handler stopped the socket.  On an interrupt at the blocking wait:
`self.stop()`.  On loop exit either way, fire the `(None, None)` sentinel once
and return. -/
def logStart (stopOn : PyDatetime → List Nat → Bool) :
    List LogEvent → List Nat → Option (List LogRecord)
  | [], _ => none
  | .interrupt :: _, _ => some [sentinelRecord]
  | .chunk data :: evs, buf =>
    match processFrames stopOn (splitFrames (buf ++ data)).1 true with
    | none => none
    | some (recs, opened) =>
      if opened then
        match logStart stopOn evs (splitFrames (buf ++ data)).2 with
        | none => none
        | some tr => some (recs ++ tr)
      else some (recs ++ [sentinelRecord])

/-- Splitting peels one complete NUL-terminated frame at a time. -/
theorem splitFrames_append (m : List Nat) (rest : List Nat) (hm : 0 ∉ m) :
    splitFrames (m ++ 0 :: rest) =
      (m :: (splitFrames rest).1, (splitFrames rest).2) := by
  induction m with
  | nil => simp [splitFrames]
  | cons c m ih =>
    have hc : ¬(c = 0) := fun h => hm (h ▸ List.mem_cons_self c m)
    have hm2 : 0 ∉ m := fun h => hm (List.mem_cons_of_mem c h)
    simp only [List.cons_append, splitFrames, List.append_eq, ih hm2, hc, if_false]

/-- The fixed 6-byte junk prefix plus separator byte of a log frame, in the
concrete scenarios below. -/
def c5Header : List Nat := [120, 120, 120, 120, 120, 120, 32]

/-- The `b"11/20/2016 - 13:05:40: "` timestamp prefix of the concrete frames. -/
def c5TsPrefix : List Nat :=
  [49, 49, 47, 50, 48, 47, 50, 48, 49, 54, 32, 45, 32, 49, 51, 58, 48, 53, 58, 52, 48, 58, 32]

/-- A complete frame carrying message `m`: header, timestamp text, message,
trailing newline. -/
def c5Frame (m : List Nat) : List Nat := c5Header ++ c5TsPrefix ++ m ++ [10]

/-- A datagram holding three complete NUL-terminated frames with messages
`"one"`, `"two"`, `"three"`. -/
def c5Data : List Nat :=
  c5Frame [111, 110, 101] ++ [0] ++ c5Frame [116, 119, 111] ++ [0] ++
    c5Frame [116, 104, 114, 101, 101] ++ [0]

/-- The handler behaviour: stop the socket on the `"three"` record. -/
def c5Stop : PyDatetime → List Nat → Bool := fun _ m => decide (m = [116, 104, 114, 101, 101])

/-- **C5 counterexample.** Two complete frames (`"one"`, `"two"`) followed by a
record (`"three"`) whose handler invokes `stop()`: the stop-triggering record
is itself dispatched — its handler receives it as a normal broadcast — so the
dispatch sequence is the three records then the sentinel, not the claimed two
records then the sentinel. -/
theorem c5_counterexample :
    logStart c5Stop [LogEvent.chunk c5Data] [] =
      some [⟨some ⟨2016, 11, 20, 13, 5, 40⟩, some [111, 110, 101]⟩,
            ⟨some ⟨2016, 11, 20, 13, 5, 40⟩, some [116, 119, 111]⟩,
            ⟨some ⟨2016, 11, 20, 13, 5, 40⟩, some [116, 104, 114, 101, 101]⟩,
            sentinelRecord] ∧
    logStart c5Stop [LogEvent.chunk c5Data] [] ≠
      some [⟨some ⟨2016, 11, 20, 13, 5, 40⟩, some [111, 110, 101]⟩,
            ⟨some ⟨2016, 11, 20, 13, 5, 40⟩, some [116, 119, 111]⟩,
            sentinelRecord] := by
  constructor
  · rfl
  · decide

/-- **C5 (amended).** For a datagram delivering two complete NUL-terminated
frames followed by a third record on which a handler invokes `stop()`:
`start()` broadcasts, in order, the two decoded `(timestamp, message)` pairs,
then the stop-triggering record itself, then exits the loop and broadcasts the
`(absent, absent)` sentinel exactly once as the final dispatched record, then
returns.  The sentinel is likewise the sole broadcast when the loop exits via
an external interrupt at the blocking wait. -/
theorem c5_log_socket_amended :
    (∀ (stopOn : PyDatetime → List Nat → Bool)
       (h1 h2 h3 p1 p2 p3 msg1 msg2 msg3 : List Nat) (n1 n2 n3 : Nat)
       (ts1 ts2 ts3 : PyDatetime),
      h1.length = 7 → h2.length = 7 → h3.length = 7 →
      0 ∉ h1 ++ p1 ++ [n1] → 0 ∉ h2 ++ p2 ++ [n2] → 0 ∉ h3 ++ p3 ++ [n3] →
      parse_timestamp p1 = some (ts1, msg1) →
      parse_timestamp p2 = some (ts2, msg2) →
      parse_timestamp p3 = some (ts3, msg3) →
      stopOn ts1 msg1 = false → stopOn ts2 msg2 = false → stopOn ts3 msg3 = true →
      logStart stopOn [LogEvent.chunk ((h1 ++ p1 ++ [n1]) ++
          0 :: ((h2 ++ p2 ++ [n2]) ++ 0 :: ((h3 ++ p3 ++ [n3]) ++ 0 :: [])))] [] =
        some [⟨some ts1, some msg1⟩, ⟨some ts2, some msg2⟩,
              ⟨some ts3, some msg3⟩, sentinelRecord] ∧
      ([(⟨some ts1, some msg1⟩ : LogRecord), ⟨some ts2, some msg2⟩,
        ⟨some ts3, some msg3⟩, sentinelRecord].countP
          (fun e => decide (e = sentinelRecord))) = 1) ∧
    (∀ (stopOn : PyDatetime → List Nat → Bool) (buf : List Nat),
      logStart stopOn [LogEvent.interrupt] buf = some [sentinelRecord]) := by
  constructor
  · intro stopOn h1 h2 h3 p1 p2 p3 msg1 msg2 msg3 n1 n2 n3 ts1 ts2 ts3
      hh1 hh2 hh3 hz1 hz2 hz3 hp1 hp2 hp3 hs1 hs2 hs3
    have hsplit : splitFrames ((h1 ++ p1 ++ [n1]) ++
        0 :: ((h2 ++ p2 ++ [n2]) ++ 0 :: ((h3 ++ p3 ++ [n3]) ++ 0 :: []))) =
        ([h1 ++ p1 ++ [n1], h2 ++ p2 ++ [n2], h3 ++ p3 ++ [n3]], []) := by
      rw [splitFrames_append _ _ hz1, splitFrames_append _ _ hz2,
        splitFrames_append _ _ hz3]
      rfl
    have hstrip1 : (((h1 ++ (p1 ++ [n1])) : List Nat).drop 7).dropLast = p1 := by
      rw [List.drop_left' hh1, List.dropLast_concat]
    have hstrip2 : (((h2 ++ (p2 ++ [n2])) : List Nat).drop 7).dropLast = p2 := by
      rw [List.drop_left' hh2, List.dropLast_concat]
    have hstrip3 : (((h3 ++ (p3 ++ [n3])) : List Nat).drop 7).dropLast = p3 := by
      rw [List.drop_left' hh3, List.dropLast_concat]
    have hproc : processFrames stopOn
        [h1 ++ p1 ++ [n1], h2 ++ p2 ++ [n2], h3 ++ p3 ++ [n3]] true =
        some ([⟨some ts1, some msg1⟩, ⟨some ts2, some msg2⟩,
               ⟨some ts3, some msg3⟩], false) := by
      simp only [processFrames, List.append_assoc, hstrip1, hstrip2, hstrip3,
        hp1, hp2, hp3, hs1, hs2, hs3]
      simp
    constructor
    · simp only [logStart, List.nil_append, hsplit, hproc]
      rfl
    · simp [List.countP_cons, sentinelRecord]
  · intro stopOn buf
    rfl

/-- **C5 (amended) witness.** The concrete three-frame datagram with the
stop-on-`"three"` handler, and an interrupt scenario. -/
theorem c5_log_socket_amended_witness :
    (logStart c5Stop [LogEvent.chunk ((c5Header ++ (c5TsPrefix ++ [111, 110, 101]) ++ [10]) ++
          0 :: ((c5Header ++ (c5TsPrefix ++ [116, 119, 111]) ++ [10]) ++
            0 :: ((c5Header ++ (c5TsPrefix ++ [116, 104, 114, 101, 101]) ++ [10]) ++
              0 :: [])))] [] =
        some [⟨some ⟨2016, 11, 20, 13, 5, 40⟩, some [111, 110, 101]⟩,
              ⟨some ⟨2016, 11, 20, 13, 5, 40⟩, some [116, 119, 111]⟩,
              ⟨some ⟨2016, 11, 20, 13, 5, 40⟩, some [116, 104, 114, 101, 101]⟩,
              sentinelRecord] ∧
      ([(⟨some ⟨2016, 11, 20, 13, 5, 40⟩, some [111, 110, 101]⟩ : LogRecord),
        ⟨some ⟨2016, 11, 20, 13, 5, 40⟩, some [116, 119, 111]⟩,
        ⟨some ⟨2016, 11, 20, 13, 5, 40⟩, some [116, 104, 114, 101, 101]⟩,
        sentinelRecord].countP (fun e => decide (e = sentinelRecord))) = 1) ∧
    logStart c5Stop [LogEvent.interrupt] [1, 2, 3] = some [sentinelRecord] :=
  ⟨c5_log_socket_amended.1 c5Stop c5Header c5Header c5Header
      (c5TsPrefix ++ [111, 110, 101]) (c5TsPrefix ++ [116, 119, 111])
      (c5TsPrefix ++ [116, 104, 114, 101, 101])
      [111, 110, 101] [116, 119, 111] [116, 104, 114, 101, 101] 10 10 10
      ⟨2016, 11, 20, 13, 5, 40⟩ ⟨2016, 11, 20, 13, 5, 40⟩ ⟨2016, 11, 20, 13, 5, 40⟩
      rfl rfl rfl (by decide) (by decide) (by decide)
      (by rfl) (by rfl) (by rfl) (by decide) (by decide) (by decide),
   c5_log_socket_amended.2 c5Stop [1, 2, 3]⟩

end SourceBot
